import Mathlib

/-!
Verification development for the `http_lib` HTTP/1.1 message-grammar library.

Bytes and text are modelled as `List Char` (one `Char` per byte; every input
considered here is ASCII, and `obs-text` bytes 0x80-0xFF are covered by the
character code).  Python exceptions are modelled by `Except PyErr`.  Grammar
evaluation follows the semantics of the underlying ABNF engines: greedy
repetition, no backtracking across concatenation, and first-longest-match
alternation; `parse_all` / `evaluate` require the whole input to be consumed.
Loops that are `while` loops in the source take an explicit fuel argument;
top-level wrappers supply `length + 1` fuel, which is always sufficient since
every iteration consumes at least one element.
-/

/-- Error values corresponding to the exceptions raised by the source
(`ValueError` variants are split by the spec's error taxonomy). -/
inductive PyErr where
  | grammarMismatch (rule : String)
  | framingAmbiguity (what : String)
  | duplicateParameter (name : List Char)
  | valueError (msg : String)
  | typeError (msg : String)
  | attributeError (msg : String)
  | malformedAddress
  | incompleteRead
deriving DecidableEq

instance {ε α : Type} [DecidableEq ε] [DecidableEq α] : DecidableEq (Except ε α) := fun x y =>
  match x, y with
  | .ok a, .ok b => if h : a = b then .isTrue (by rw [h]) else .isFalse (by simp [h])
  | .error a, .error b => if h : a = b then .isTrue (by rw [h]) else .isFalse (by simp [h])
  | .ok _, .error _ => .isFalse (by simp)
  | .error _, .ok _ => .isFalse (by simp)

/-! ## Character classes and numeric conversions -/

/-- ASCII lower-casing, as `str.lower` acts on the ASCII inputs involved. -/
def asciiLower (c : Char) : Char :=
  if 'A' ≤ c ∧ c ≤ 'Z' then Char.ofNat (c.toNat + 32) else c

/-- `str.lower` on a character list. -/
def lowerStr (s : List Char) : List Char := s.map asciiLower

/-- `DIGIT = %x30-39`. -/
def isDigitChar (c : Char) : Bool := 48 ≤ c.toNat ∧ c.toNat ≤ 57

def isAlphaChar (c : Char) : Bool := ('A' ≤ c ∧ c ≤ 'Z') ∨ ('a' ≤ c ∧ c ≤ 'z')

def isHexChar (c : Char) : Bool :=
  isDigitChar c ∨ ('A' ≤ c ∧ c ≤ 'F') ∨ ('a' ≤ c ∧ c ≤ 'f')

def decDigitVal (c : Char) : Nat := c.toNat - 48

def hexDigitVal (c : Char) : Nat :=
  if isDigitChar c then c.toNat - 48
  else if 'a' ≤ c ∧ c ≤ 'f' then c.toNat - 87
  else c.toNat - 55

def decValueAux : List Char → Nat → Option Nat
  | [], acc => some acc
  | c :: cs, acc =>
    if isDigitChar c then decValueAux cs (10 * acc + decDigitVal c) else none

/-- `int(s)` on a plain decimal digit string (the inputs relevant here carry no
sign, whitespace or underscores); `none` models the `ValueError`. -/
def decValueQ (s : List Char) : Option Nat :=
  match s with
  | [] => none
  | c :: cs => decValueAux (c :: cs) 0

def hexValueAux : List Char → Nat → Option Nat
  | [], acc => some acc
  | c :: cs, acc =>
    if isHexChar c then hexValueAux cs (16 * acc + hexDigitVal c) else none

/-- `int(s, 16)` on a plain hexadecimal digit string; `none` models the
`ValueError`. -/
def hexValueQ (s : List Char) : Option Nat :=
  match s with
  | [] => none
  | c :: cs => hexValueAux (c :: cs) 0

def digitCharOf (n : Nat) : Char := Char.ofNat (48 + n)

def decRenderAux : Nat → Nat → List Char
  | 0, n => [digitCharOf n]
  | fuel + 1, n =>
    if n < 10 then [digitCharOf n]
    else decRenderAux fuel (n / 10) ++ [digitCharOf (n % 10)]

/-- `str(n)` for a natural number: standard decimal rendering. -/
def decRender (n : Nat) : List Char := decRenderAux n n

def hexCharOf (n : Nat) : Char :=
  if n < 10 then Char.ofNat (48 + n) else Char.ofNat (87 + n)

def hexRenderAux : Nat → Nat → List Char
  | 0, n => [hexCharOf n]
  | fuel + 1, n =>
    if n < 16 then [hexCharOf n]
    else hexRenderAux fuel (n / 16) ++ [hexCharOf (n % 16)]

/-- `'%x' % n`: lowercase hexadecimal rendering. -/
def hexRender (n : Nat) : List Char := hexRenderAux n n

/-! ## Stream reads (`asyncio.StreamReader` operations) -/

/-- `reader.readuntil(b'\r\n')`: the bytes up to and including the first CRLF,
plus the remaining stream; `none` models `IncompleteReadError` (end of stream
before the separator). -/
def readUntilCRLF : List Char → Option (List Char × List Char)
  | [] => none
  | '\r' :: '\n' :: rest => some (['\r', '\n'], rest)
  | c :: rest =>
    match readUntilCRLF rest with
    | some (pre, post) => some (c :: pre, post)
    | none => none

/-- `reader.readexactly(n)`: exactly `n` bytes plus the remaining stream;
`none` models `IncompleteReadError`. -/
def readExactly (n : Nat) (s : List Char) : Option (List Char × List Char) :=
  if n ≤ s.length then some (s.take n, s.drop n) else none

/-! ## `message_body_from_reader` (src/http_lib/structures/message.py) -/

/-- The framing state accumulated by the header scan at the top of
`message_body_from_reader`.  `transferEncoding` mirrors the source's
`transfer_encoding` local variable, which is initialised to `None` and —
exactly as in the source — never assigned afterwards. -/
structure FramingInfo where
  contentLength : Option Nat := none
  transferEncoding : Option (List Char) := none
  chunked : Bool := false
  includesTrailers : Option Bool := none
deriving DecidableEq

/-- The `for (name, value) in headers` scan of `message_body_from_reader`,
selecting the body-framing strategy before any stream read happens. -/
def scanFramingHeaders : List (List Char × List Char) → Except PyErr FramingInfo :=
  let step (st : FramingInfo) (h : List Char × List Char) : Except PyErr FramingInfo :=
    let lname := lowerStr h.1
    if lname = "content-length".data then
      if st.contentLength.isSome then
        .error (.framingAmbiguity "Content length has already been set.")
      else
        match decValueQ h.2 with
        | some n => .ok { st with contentLength := some n }
        | none => .error (.valueError "invalid literal for int")
    else if lname = "transfer-encoding".data then
      if st.transferEncoding.isSome then
        .error (.framingAmbiguity "Transfer encoding has already been set.")
      else if lowerStr h.2 = "chunked".data then
        .ok { st with chunked := true }
      else
        .ok st
    else if lname = "trailers".data then
      if st.includesTrailers.isSome then
        .error (.framingAmbiguity "Trailers has already been set.")
      else
        .ok { st with includesTrailers := some true }
    else
      .ok st
  fun headers => headers.foldlM step {}

/-- The `while chunk_size_bytes := await reader.readuntil(...)` loop: reads a
hex chunk-size line, stops on size zero, otherwise reads exactly `size + 2`
bytes and emits size line and chunk together.  Returns the emitted units, the
final (zero-size) chunk-size line, and the remaining stream. -/
def readChunksAux : Nat → List Char → Except PyErr (List (List Char) × List Char × List Char)
  | 0, _ => .error (.valueError "out of fuel")
  | fuel + 1, s =>
    match readUntilCRLF s with
    | none => .error .incompleteRead
    | some (line, rest) =>
      match hexValueQ (line.dropLast.dropLast) with
      | none => .error (.valueError "invalid literal for int with base 16")
      | some 0 => .ok ([], line, rest)
      | some (n + 1) =>
        match readExactly (n + 1 + 2) rest with
        | none => .error .incompleteRead
        | some (chunkBytes, rest2) =>
          match readChunksAux fuel rest2 with
          | .ok (units, zeroLine, rest3) => .ok ((line ++ chunkBytes) :: units, zeroLine, rest3)
          | .error e => .error e

/-- The `while trailer := await reader.readuntil(...)` loop emitting trailer
lines up to and including the bare CRLF. -/
def readTrailersAux : Nat → List Char → Except PyErr (List (List Char) × List Char)
  | 0, _ => .error (.valueError "out of fuel")
  | fuel + 1, s =>
    match readUntilCRLF s with
    | none => .error .incompleteRead
    | some (t, rest) =>
      if t = ['\r', '\n'] then .ok ([t], rest)
      else
        match readTrailersAux fuel rest with
        | .ok (ts, rest2) => .ok (t :: ts, rest2)
        | .error e => .error e

/-- `message_body_from_reader(reader, headers, timeout)`: the emitted body
units for the given headers, reading from `stream`. -/
def message_body_from_reader (headers : List (List Char × List Char))
    (stream : List Char) : Except PyErr (List (List Char)) :=
  match scanFramingHeaders headers with
  | .error e => .error e
  | .ok fi =>
    if fi.chunked then
      match readChunksAux (stream.length + 1) stream with
      | .error e => .error e
      | .ok (units, zeroLine, rest) =>
        if fi.includesTrailers.getD false then
          match readTrailersAux (rest.length + 1) rest with
          | .ok (trailers, _) => .ok (units ++ trailers)
          | .error e => .error e
        else
          match readUntilCRLF rest with
          | none => .error .incompleteRead
          | some (crlf, _) =>
            if crlf.length ≠ 2 then .error (.valueError "Additional data after body.")
            else .ok (units ++ [zeroLine ++ crlf])
    else
      match fi.contentLength with
      | some n =>
        match readExactly n stream with
        | some (body, _) => .ok [body]
        | none => .error .incompleteRead
      | none => .ok []

example :
    message_body_from_reader [("Transfer-Encoding".data, "chunked".data)]
      "4\r\nWiki\r\n0\r\n\r\n".data =
    .ok ["4\r\nWiki\r\n".data, "0\r\n\r\n".data] := by decide

/-! ## RFC 3986 character classes and sub-grammars (used by `_HostRule`) -/

def isUnreservedChar (c : Char) : Bool :=
  isAlphaChar c ∨ isDigitChar c ∨ c = '-' ∨ c = '.' ∨ c = '_' ∨ c = '~'

def isSubDelimChar (c : Char) : Bool :=
  c = '!' ∨ c = '$' ∨ c = '&' ∨ c = '\'' ∨ c = '(' ∨ c = ')' ∨
  c = '*' ∨ c = '+' ∨ c = ',' ∨ c = ';' ∨ c = '='

/-- Validity of a three-character `dec-octet` alternative:
`"1" 2DIGIT / "2" %x30-34 DIGIT / "25" %x30-35`. -/
def decOctet3Ok (a b c : Char) : Bool :=
  (a = '1' ∧ isDigitChar b ∧ isDigitChar c) ∨
  (a = '2' ∧ ('0' ≤ b ∧ b ≤ '4') ∧ isDigitChar c) ∨
  (a = '2' ∧ b = '5' ∧ ('0' ≤ c ∧ c ≤ '5'))

/-- `dec-octet` under first-longest-match alternation: the longest of the
five alternatives that matches a prefix of the input. -/
def decOctetSplit : List Char → Option (List Char × List Char)
  | a :: b :: c :: rest =>
    if decOctet3Ok a b c then some ([a, b, c], rest)
    else if ('1' ≤ a ∧ a ≤ '9') ∧ isDigitChar b then some ([a, b], c :: rest)
    else if isDigitChar a then some ([a], b :: c :: rest)
    else none
  | [a, b] =>
    if ('1' ≤ a ∧ a ≤ '9') ∧ isDigitChar b then some ([a, b], [])
    else if isDigitChar a then some ([a], [b])
    else none
  | [a] => if isDigitChar a then some ([a], []) else none
  | [] => none

/-- `IPv4address = dec-octet "." dec-octet "." dec-octet "." dec-octet`. -/
def ipv4AddressSplit (s : List Char) : Option (List Char × List Char) :=
  match decOctetSplit s with
  | none => none
  | some (o1, r1) =>
    match r1 with
    | '.' :: r2 =>
      match decOctetSplit r2 with
      | none => none
      | some (o2, r3) =>
        match r3 with
        | '.' :: r4 =>
          match decOctetSplit r4 with
          | none => none
          | some (o3, r5) =>
            match r5 with
            | '.' :: r6 =>
              match decOctetSplit r6 with
              | none => none
              | some (o4, r7) =>
                some (o1 ++ '.' :: o2 ++ '.' :: o3 ++ '.' :: o4, r7)
            | _ => none
        | _ => none
    | _ => none

/-- `reg-name = *( unreserved / pct-encoded / sub-delims )`, greedy; may match
the empty string. -/
def regNameSplit : List Char → List Char × List Char
  | [] => ([], [])
  | '%' :: rest =>
    match rest with
    | h1 :: h2 :: rest2 =>
      if isHexChar h1 ∧ isHexChar h2 then
        let (m, r) := regNameSplit rest2
        ('%' :: h1 :: h2 :: m, r)
      else ([], '%' :: rest)
    | _ => ([], '%' :: rest)
  | c :: rest =>
    if isUnreservedChar c ∨ isSubDelimChar c then
      let (m, r) := regNameSplit rest
      (c :: m, r)
    else ([], c :: rest)

def isIPvFutureTailChar (c : Char) : Bool :=
  isUnreservedChar c ∨ isSubDelimChar c ∨ c = ':'

/-- `IPvFuture = "v" 1*HEXDIG "." 1*( unreserved / sub-delims / ":" )`
(ABNF literals are case-insensitive). -/
def ipvFutureSplit : List Char → Option (List Char × List Char)
  | [] => none
  | v :: rest =>
    if asciiLower v = 'v' then
      let hs := rest.takeWhile isHexChar
      let r2 := rest.dropWhile isHexChar
      if hs = [] then none
      else
        match r2 with
        | '.' :: r3 =>
          let ts := r3.takeWhile isIPvFutureTailChar
          let r4 := r3.dropWhile isIPvFutureTailChar
          if ts = [] then none else some (v :: hs ++ '.' :: ts, r4)
        | _ => none
    else none

/-- The permissive byte class the library substitutes for the formal
`IPv6address` rule: `1*(%x21-5C / %x5E-7E)`. -/
def isPermissiveIpv6Char (c : Char) : Bool :=
  (0x21 ≤ c.toNat ∧ c.toNat ≤ 0x5C) ∨ (0x5E ≤ c.toNat ∧ c.toNat ≤ 0x7E)

inductive IpLiteralInner where
  | ipv6 (t : List Char)
  | ipvFuture (t : List Char)
deriving DecidableEq

def IpLiteralInner.text : IpLiteralInner → List Char
  | .ipv6 t => t
  | .ipvFuture t => t

/-- First-longest-match between two prefix parses (shorter remainder means a
longer match; ties keep the first alternative). -/
def chooseLonger {α : Type} :
    Option (α × List Char) → Option (α × List Char) → Option (α × List Char)
  | some (a, ra), some (b, rb) =>
    if rb.length < ra.length then some (b, rb) else some (a, ra)
  | some x, none => some x
  | none, some y => some y
  | none, none => none

/-- `IP-literal = "[" ( IPv6address / IPvFuture ) "]"` with the permissive
IPv6 byte class and first-longest-match inner alternation. -/
def ipLiteralSplit (s : List Char) : Option (IpLiteralInner × List Char) :=
  match s with
  | '[' :: r1 =>
    let c6 : Option (IpLiteralInner × List Char) :=
      let m := r1.takeWhile isPermissiveIpv6Char
      if m = [] then none else some (.ipv6 m, r1.dropWhile isPermissiveIpv6Char)
    let cf : Option (IpLiteralInner × List Char) :=
      match ipvFutureSplit r1 with
      | some (t, r) => some (.ipvFuture t, r)
      | none => none
    match chooseLonger c6 cf with
    | some (alt, r2) =>
      match r2 with
      | ']' :: r3 => some (alt, r3)
      | _ => none
    | none => none
  | _ => none

inductive UriHostAlt where
  | ipLiteral (inner : IpLiteralInner)
  | ipv4 (t : List Char)
  | regName (t : List Char)
deriving DecidableEq

/-- `uri-host = IP-literal / IPv4address / reg-name`, first-longest-match. -/
def uriHostSplit (s : List Char) : Option (UriHostAlt × List Char) :=
  let cLit : Option (UriHostAlt × List Char) :=
    match ipLiteralSplit s with
    | some (inner, r) => some (.ipLiteral inner, r)
    | none => none
  let c4 : Option (UriHostAlt × List Char) :=
    match ipv4AddressSplit s with
    | some (t, r) => some (.ipv4 t, r)
    | none => none
  let cReg : Option (UriHostAlt × List Char) :=
    let (t, r) := regNameSplit s
    some (.regName t, r)
  chooseLonger (chooseLonger cLit c4) cReg

structure HostParse where
  alt : UriHostAlt
  port : Option (List Char)
deriving DecidableEq

/-- `_HostRule('host').parse_all(source)`: `host = uri-host [ ":" port ]` with
`port = *DIGIT`, requiring the whole input to be consumed. -/
def hostParseAll (s : List Char) : Option HostParse :=
  match uriHostSplit s with
  | none => none
  | some (alt, r1) =>
    match r1 with
    | ':' :: r2 =>
      let ds := r2.takeWhile isDigitChar
      let r3 := r2.dropWhile isDigitChar
      if r3 = [] then some ⟨alt, some ds⟩ else none
    | [] => some ⟨alt, none⟩
    | _ => none

/-! ## `ipaddress` constructors (stdlib collaborators of the decoders) -/

def splitOnChar (sep : Char) : List Char → List (List Char)
  | [] => [[]]
  | c :: rest =>
    let gs := splitOnChar sep rest
    if c = sep then [] :: gs
    else
      match gs with
      | g :: t => (c :: g) :: t
      | [] => [[c]]

/-- One dotted-quad octet as accepted by `ipaddress.IPv4Address`: 1-3 decimal
digits, value at most 255, no leading zero. -/
def ipv4OctetOk (p : List Char) : Bool :=
  p ≠ [] ∧ p.all isDigitChar ∧ p.length ≤ 3 ∧
  (p.length = 1 ∨ p.head? ≠ some '0') ∧ (decValueQ p).getD 256 ≤ 255

/-- `IPv4Address(s)._ip`: the 32-bit value, or `none` when the constructor
raises. -/
def ipv4FromString (s : List Char) : Option Nat :=
  match splitOnChar '.' s with
  | [a, b, c, d] =>
    if ipv4OctetOk a ∧ ipv4OctetOk b ∧ ipv4OctetOk c ∧ ipv4OctetOk d then
      some ((decValueQ a).getD 0 * 16777216 + (decValueQ b).getD 0 * 65536 +
            (decValueQ c).getD 0 * 256 + (decValueQ d).getD 0)
    else none
  | _ => none

/-- One hextet: 1-4 hexadecimal digits. -/
def parseHextet (p : List Char) : Option Nat :=
  if p ≠ [] ∧ p.length ≤ 4 ∧ p.all isHexChar then hexValueQ p else none

/-- Expansion of a trailing embedded IPv4 address into two hextets. -/
def ipv6ExpandV4 (ps : List (List Char)) : Option (List (List Char)) :=
  match ps.getLast? with
  | some lastP =>
    if lastP.contains '.' then
      match ipv4FromString lastP with
      | some v => some (ps.dropLast ++ [hexRender (v / 65536), hexRender (v % 65536)])
      | none => none
    else some ps
  | none => none

def hextetsValue (gs : List (List Char)) : Option (List Nat) := gs.mapM parseHextet

/-- The colon-separated groups of an IPv6 literal resolved to exactly eight
hextet values, handling at most one `::` (CPython `_ip_int_from_string`). -/
def ipv6GroupsFrom (qs : List (List Char)) : Option (List Nat) :=
  let interior := (qs.drop 1).dropLast
  let empties := interior.countP (fun g => g.isEmpty)
  if empties = 0 then
    if qs.length = 8 ∧ qs.head? ≠ some [] ∧ qs.getLast? ≠ some [] then hextetsValue qs
    else none
  else if empties = 1 then
    let i := interior.findIdx (fun g => g.isEmpty) + 1
    let hi := qs.take i
    let lo := qs.drop (i + 1)
    let hiOk : Option (List (List Char)) :=
      if hi.head? = some [] then (if hi.length = 1 then some [] else none) else some hi
    let loOk : Option (List (List Char)) :=
      if lo.getLast? = some [] then (if lo.length = 1 then some [] else none) else some lo
    match hiOk, loOk with
    | some hi2, some lo2 =>
      if hi2.length + lo2.length ≤ 7 then
        match hextetsValue hi2, hextetsValue lo2 with
        | some hv, some lv => some (hv ++ List.replicate (8 - hi2.length - lo2.length) 0 ++ lv)
        | _, _ => none
      else none
    | _, _ => none
  else none

/-- `IPv6Address(s)._ip`: the 128-bit value, or `none` when the constructor
raises (scoped literals carrying `%` are modelled as invalid; no input
considered here uses a scope id). -/
def ipv6FromString (s : List Char) : Option Nat :=
  if s.contains '%' then none
  else
    let ps := splitOnChar ':' s
    if ps.length < 3 then none
    else
      match ipv6ExpandV4 ps with
      | none => none
      | some qs =>
        match ipv6GroupsFrom qs with
        | some gs => some (gs.foldl (fun acc g => acc * 65536 + g) 0)
        | none => none

/-! ## `parse_host` (src/http_lib/parse/host.py) -/

inductive HostAddress where
  | ipv4 (a : Nat)
  | ipv6 (a : Nat)
  | ipvFutureStr (t : List Char)
  | regName (t : List Char)
deriving DecidableEq

/-- `parse_host(host_value)`: dispatch on the `uri-host` alternative actually
matched, constructing the address value; the optional port is converted with
`int` first, as in the source. -/
def parse_host (s : List Char) : Except PyErr (HostAddress × Option Nat) :=
  match hostParseAll s with
  | none => .error (.grammarMismatch "host")
  | some hp =>
    let portE : Except PyErr (Option Nat) :=
      match hp.port with
      | none => .ok none
      | some pt =>
        match decValueQ pt with
        | some n => .ok (some n)
        | none => .error (.valueError "invalid literal for int")
    match portE with
    | .error e => .error e
    | .ok port =>
      match hp.alt with
      | .ipv4 t =>
        match ipv4FromString t with
        | some a => .ok (.ipv4 a, port)
        | none => .error .malformedAddress
      | .ipLiteral (.ipv6 t) =>
        match ipv6FromString t with
        | some a => .ok (.ipv6 a, port)
        | none => .error .malformedAddress
      | .ipLiteral (.ipvFuture t) => .ok (.ipvFutureStr t, port)
      | .regName t => .ok (.regName t, port)

/-- The correspondence between the `uri-host` alternative matched by the
grammar and the address value `parse_host` returns for it. -/
def altCorresponds : UriHostAlt → HostAddress → Prop
  | .ipv4 t, h => ∃ a, ipv4FromString t = some a ∧ h = .ipv4 a
  | .ipLiteral (.ipv6 t), h => ∃ a, ipv6FromString t = some a ∧ h = .ipv6 a
  | .ipLiteral (.ipvFuture t), h => h = .ipvFutureStr t
  | .regName t, h => h = .regName t

example : parse_host "[::1]:8080".data = .ok (.ipv6 1, some 8080) := by decide
example : parse_host "example.com".data = .ok (.regName "example.com".data, none) := by decide
example : parse_host "192.0.2.60".data = .ok (.ipv4 3221226044, none) := by decide
example : parse_host "user:pw@example.com".data = .error (.grammarMismatch "host") := by decide

/-! ## RFC 7230 token and quoted-string (used by `_ForwardedHeaderRule`) -/

def isTchar (c : Char) : Bool :=
  c = '!' ∨ c = '#' ∨ c = '$' ∨ c = '%' ∨ c = '&' ∨ c = '\'' ∨ c = '*' ∨
  c = '+' ∨ c = '-' ∨ c = '.' ∨ c = '^' ∨ c = '_' ∨ c.toNat = 96 ∨
  c = '|' ∨ c = '~' ∨ isDigitChar c ∨ isAlphaChar c

/-- `token = 1*tchar`, greedy. -/
def tokenSplit (s : List Char) : Option (List Char × List Char) :=
  let t := s.takeWhile isTchar
  if t = [] then none else some (t, s.dropWhile isTchar)

/-- `qdtext = HTAB / SP / %x21 / %x23-5B / %x5D-7E / obs-text`. -/
def isQdtextChar (c : Char) : Bool :=
  c = '\t' ∨ c = ' ' ∨ c.toNat = 0x21 ∨ (0x23 ≤ c.toNat ∧ c.toNat ≤ 0x5B) ∨
  (0x5D ≤ c.toNat ∧ c.toNat ≤ 0x7E) ∨ (0x80 ≤ c.toNat ∧ c.toNat ≤ 0xFF)

/-- The class after the backslash of `quoted-pair`: `HTAB / SP / VCHAR / obs-text`. -/
def isQuotedPairChar (c : Char) : Bool :=
  c = '\t' ∨ c = ' ' ∨ (0x21 ≤ c.toNat ∧ c.toNat ≤ 0x7E) ∨
  (0x80 ≤ c.toNat ∧ c.toNat ≤ 0xFF)

/-- The greedy `*( qdtext / quoted-pair )` interior of a quoted string; the
matched text is returned verbatim, backslashes included. -/
def qsInterior : List Char → List Char × List Char
  | [] => ([], [])
  | '\\' :: rest =>
    match rest with
    | c2 :: rest2 =>
      if isQuotedPairChar c2 then
        let (m, r) := qsInterior rest2
        ('\\' :: c2 :: m, r)
      else ([], '\\' :: rest)
    | [] => ([], ['\\'])
  | c :: rest =>
    if isQdtextChar c then
      let (m, r) := qsInterior rest
      (c :: m, r)
    else ([], c :: rest)

/-- `quoted-string = DQUOTE *( qdtext / quoted-pair ) DQUOTE`; the returned
text includes both quote characters (the node's matched source span). -/
def quotedStringSplit : List Char → Option (List Char × List Char)
  | '"' :: rest =>
    let (m, r) := qsInterior rest
    (match r with
     | '"' :: r2 => some ('"' :: m ++ ['"'], r2)
     | _ => none)
  | _ => none

/-! ## `_ForwardedNodeRule` (src/http_lib/parse/header/forwarded.py) -/

def isObfChar (c : Char) : Bool :=
  isAlphaChar c ∨ isDigitChar c ∨ c = '.' ∨ c = '_' ∨ c = '-'

/-- `obfnode = "_" 1*( ALPHA / DIGIT / "." / "_" / "-")` (also the shape of
`obfport`). -/
def obfnodeSplit : List Char → Option (List Char × List Char)
  | '_' :: rest =>
    let m := rest.takeWhile isObfChar
    if m = [] then none else some ('_' :: m, rest.dropWhile isObfChar)
  | _ => none

/-- A case-insensitive ABNF string literal (pattern given in lowercase);
returns the matched source characters. -/
def litCISplit : List Char → List Char → Option (List Char × List Char)
  | [], s => some ([], s)
  | _ :: _, [] => none
  | p :: ps, c :: cs =>
    if asciiLower c = p then
      match litCISplit ps cs with
      | some (m, r) => some (c :: m, r)
      | none => none
    else none

/-- `"[" IPv6address "]"` with the permissive byte class; returns the inner
text. -/
def nodeBracketSplit : List Char → Option (List Char × List Char)
  | '[' :: r1 =>
    let m := r1.takeWhile isPermissiveIpv6Char
    if m = [] then none
    else
      match r1.dropWhile isPermissiveIpv6Char with
      | ']' :: r2 => some (m, r2)
      | _ => none
  | _ => none

inductive NodenameAlt where
  | ipv4 (t : List Char)
  | ipv6Bracket (inner : List Char)
  | unknownLit (t : List Char)
  | obf (t : List Char)
deriving DecidableEq

def NodenameAlt.text : NodenameAlt → List Char
  | .ipv4 t => t
  | .ipv6Bracket inner => '[' :: inner ++ [']']
  | .unknownLit t => t
  | .obf t => t

/-- `nodename = IPv4address / "[" IPv6address "]" / "unknown" / obfnode`,
first-longest-match. -/
def nodenameSplit (s : List Char) : Option (NodenameAlt × List Char) :=
  let c1 : Option (NodenameAlt × List Char) :=
    match ipv4AddressSplit s with
    | some (t, r) => some (.ipv4 t, r)
    | none => none
  let c2 : Option (NodenameAlt × List Char) :=
    match nodeBracketSplit s with
    | some (inner, r) => some (.ipv6Bracket inner, r)
    | none => none
  let c3 : Option (NodenameAlt × List Char) :=
    match litCISplit "unknown".data s with
    | some (t, r) => some (.unknownLit t, r)
    | none => none
  let c4 : Option (NodenameAlt × List Char) :=
    match obfnodeSplit s with
    | some (t, r) => some (.obf t, r)
    | none => none
  chooseLonger (chooseLonger (chooseLonger c1 c2) c3) c4

/-- `node-port = port / obfport` with `port = 1*5DIGIT` (greedy, capped at
five digits), first-longest-match. -/
def nodePortSplit (s : List Char) : Option (List Char × List Char) :=
  chooseLonger
    (let ds := (s.takeWhile isDigitChar).take 5
     if ds = [] then none else some (ds, s.drop ds.length))
    (obfnodeSplit s)

structure NodeParse where
  nodename : NodenameAlt
  port : Option (List Char)
deriving DecidableEq

/-- The full matched source text of the `node` rule (its `Node.value`). -/
def NodeParse.raw (np : NodeParse) : List Char :=
  np.nodename.text ++ (match np.port with | some p => ':' :: p | none => [])

/-- `node = nodename [ ":" node-port ]`; a `":"` that is not followed by a
valid `node-port` leaves the optional group unmatched. -/
def nodeSplit (s : List Char) : Option (NodeParse × List Char) :=
  match nodenameSplit s with
  | none => none
  | some (alt, r1) =>
    match r1 with
    | ':' :: r2 =>
      (match nodePortSplit r2 with
       | some (pt, r3) => some (⟨alt, some pt⟩, r3)
       | none => some (⟨alt, none⟩, ':' :: r2))
    | _ => some (⟨alt, none⟩, r1)

/-- `_ForwardedNodeRule('node').parse_all(value)`. -/
def nodeParseAll (s : List Char) : Option NodeParse :=
  match nodeSplit s with
  | some (np, []) => some np
  | _ => none

/-! ## `_ForwardedHeaderRule` grammar -/

structure FwdValue where
  raw : List Char
  quoted : Bool
deriving DecidableEq

/-- The concatenation of the `value` node's children excluding the `DQUOTE`
nodes (the unescaping done in `_ForwardedHeaderRule.parse_all` before node
annotation): the enclosing quotes are stripped, the interior — backslashes
included — is kept verbatim. -/
def FwdValue.stripped (v : FwdValue) : List Char :=
  if v.quoted then (v.raw.drop 1).dropLast else v.raw

/-- `value = token / quoted-string`, first-longest-match. -/
def valueSplit (s : List Char) : Option (FwdValue × List Char) :=
  chooseLonger
    (match tokenSplit s with
     | some (t, r) => some (⟨t, false⟩, r)
     | none => none)
    (match quotedStringSplit s with
     | some (q, r) => some (⟨q, true⟩, r)
     | none => none)

structure FwdPair where
  name : List Char
  value : FwdValue
deriving DecidableEq

/-- `forwarded-pair = token "=" value`. -/
def pairSplit (s : List Char) : Option (FwdPair × List Char) :=
  match tokenSplit s with
  | none => none
  | some (n, r1) =>
    match r1 with
    | '=' :: r2 =>
      (match valueSplit r2 with
       | some (v, r3) => some (⟨n, v⟩, r3)
       | none => none)
    | _ => none

/-- The `*( ";" [ forwarded-pair ] )` tail of `forwarded-element`. -/
def elemTailAux : Nat → List Char → List FwdPair × List Char
  | 0, s => ([], s)
  | fuel + 1, s =>
    match s with
    | ';' :: r =>
      (match pairSplit r with
       | some (p, r2) =>
         let (ps, r3) := elemTailAux fuel r2
         (p :: ps, r3)
       | none => elemTailAux fuel r)
    | _ => ([], s)

/-- `forwarded-element = [ forwarded-pair ] *( ";" [ forwarded-pair ] )`;
may match the empty string. -/
def elementSplit (fuel : Nat) (s : List Char) : List FwdPair × List Char :=
  match pairSplit s with
  | some (p, r) =>
    let (ps, r2) := elemTailAux fuel r
    (p :: ps, r2)
  | none => elemTailAux fuel s

def isOwsChar (c : Char) : Bool := c = ' ' ∨ c = '\t'

/-- The `*( OWS "," [ OWS forwarded-element ] )` tail of `ForwardedValue`;
the optional group always matches (possibly emptily), producing an element. -/
def fwdValueTailAux : Nat → List Char → List (List FwdPair) × List Char
  | 0, s => ([], s)
  | fuel + 1, s =>
    match s.dropWhile isOwsChar with
    | ',' :: r2 =>
      let r3 := r2.dropWhile isOwsChar
      let (ps, r4) := elementSplit fuel r3
      let (es, r5) := fwdValueTailAux fuel r4
      (ps :: es, r5)
    | _ => ([], s)

/-- `ForwardedValue = forwarded-element *( OWS "," [ OWS forwarded-element ] )`,
returning the `forwarded-element` children in document order. -/
def forwardedValueSplit (s : List Char) : List (List FwdPair) × List Char :=
  let fuel := s.length + 1
  let (ps, r1) := elementSplit fuel s
  let (es, r2) := fwdValueTailAux fuel r1
  (ps :: es, r2)

structure AnnPair where
  name : List Char
  value : FwdValue
  node : Option NodeParse
deriving DecidableEq

/-- The node-annotation pass of `_ForwardedHeaderRule.parse_all`: every
`for`/`by` pair's unescaped value is parsed against the `node` rule (a
mismatch raises), other pairs are untouched. -/
def annotatePair (p : FwdPair) : Except PyErr AnnPair :=
  if lowerStr p.name = "for".data ∨ lowerStr p.name = "by".data then
    match nodeParseAll p.value.stripped with
    | some np => .ok ⟨p.name, p.value, some np⟩
    | none => .error (.grammarMismatch "node")
  else .ok ⟨p.name, p.value, none⟩

/-- Sequential error-propagating map (the semantics of a Python `for` loop
building a list, aborting at the first raised exception). -/
def mapExcept {α β : Type} (f : α → Except PyErr β) : List α → Except PyErr (List β)
  | [] => .ok []
  | x :: xs =>
    match f x with
    | .error e => .error e
    | .ok y =>
      match mapExcept f xs with
      | .error e => .error e
      | .ok ys => .ok (y :: ys)

/-- `_ForwardedHeaderRule('ForwardedValue').parse_all(forwarded_value)`:
grammar match over the whole input plus the node-annotation pass. -/
def forwardedParseAll (s : List Char) : Except PyErr (List (List AnnPair)) :=
  match forwardedValueSplit s with
  | (elems, []) => mapExcept (fun e => mapExcept annotatePair e) elems
  | _ => .error (.grammarMismatch "ForwardedValue")

/-! ## `parse_forwarded_header_value` -/

inductive FwdVal where
  | str (s : List Char)
  | ipv4 (a : Nat) (port : Option Nat)
  | ipv6 (a : Nat) (port : Option Nat)
deriving DecidableEq

/-- The value stored for one forwarded pair: the raw matched value text,
replaced — for `for`/`by` in node mode — by the node resolution of the
source's lines 122-134 (port `int` conversion first, then dispatch on the
nodename alternative; `unknown`/`obfnode` keep the plain node text). -/
def resolvePairValue (useNode : Bool) (lname : List Char) (p : AnnPair) :
    Except PyErr FwdVal :=
  if useNode ∧ (lname = "for".data ∨ lname = "by".data) then
    match p.node with
    | none => .error (.attributeError "node")
    | some np =>
      let portE : Except PyErr (Option Nat) :=
        match np.port with
        | none => .ok none
        | some pt =>
          match decValueQ pt with
          | some n => .ok (some n)
          | none => .error (.valueError "invalid literal for int")
      match portE with
      | .error e => .error e
      | .ok port =>
        match np.nodename with
        | .ipv4 t =>
          match ipv4FromString t with
          | some a => .ok (.ipv4 a port)
          | none => .error .malformedAddress
        | .ipv6Bracket inner =>
          match ipv6FromString inner with
          | some a => .ok (.ipv6 a port)
          | none => .error .malformedAddress
        | _ => .ok (.str np.raw)
  else .ok (.str p.value.raw)

/-- The per-element pair walk: lower-cased names are collected in order with a
duplicate check before each pair's value is resolved. -/
def walkPairs (useNode : Bool) :
    List AnnPair → List (List Char × FwdVal) → Except PyErr (List (List Char × FwdVal))
  | [], acc => .ok acc
  | p :: rest, acc =>
    let lname := lowerStr p.name
    if lname ∈ acc.map Prod.fst then .error (.duplicateParameter lname)
    else
      match resolvePairValue useNode lname p with
      | .error e => .error e
      | .ok v => walkPairs useNode rest (acc ++ [(lname, v)])

structure ForwardedElementR where
  by_value : Option FwdVal := none
  for_value : Option FwdVal := none
  host_value : Option FwdVal := none
  proto_value : Option FwdVal := none
deriving DecidableEq

/-- One keyword argument of the `ForwardedElement`/`NodeForwardedElement`
constructor call; an unrecognised parameter name is a `TypeError`. -/
def setElemField (e : ForwardedElementR) : List Char × FwdVal → Except PyErr ForwardedElementR
  | (n, v) =>
    if n = "by".data then .ok { e with by_value := some v }
    else if n = "for".data then .ok { e with for_value := some v }
    else if n = "host".data then .ok { e with host_value := some v }
    else if n = "proto".data then .ok { e with proto_value := some v }
    else .error (.typeError "unexpected keyword argument")

/-- The `constructor(**{...})` call: assign each collected
`(parameter, value)` pair to its record field. -/
def buildElement : List (List Char × FwdVal) → ForwardedElementR → Except PyErr ForwardedElementR
  | [], e => .ok e
  | nv :: rest, e =>
    match setElemField e nv with
    | .error err => .error err
    | .ok e2 => buildElement rest e2

/-- `parse_forwarded_header_value(forwarded_value, use_node)`. -/
def parse_forwarded_header_value (s : List Char) (useNode : Bool) :
    Except PyErr (List ForwardedElementR) :=
  match forwardedParseAll s with
  | .error e => .error e
  | .ok elems =>
    mapExcept (fun pairs =>
      match walkPairs useNode pairs [] with
      | .error e => .error e
      | .ok pvs => buildElement pvs {}) elems

/-- The record field a given lower-cased parameter name is stored in. -/
def elemFieldOf (e : ForwardedElementR) (n : List Char) : Option FwdVal :=
  if n = "by".data then e.by_value
  else if n = "for".data then e.for_value
  else if n = "host".data then e.host_value
  else if n = "proto".data then e.proto_value
  else none

example :
    parse_forwarded_header_value "for=192.0.2.60;proto=http;by=203.0.113.43".data false =
    .ok [⟨some (.str "203.0.113.43".data), some (.str "192.0.2.60".data),
          none, some (.str "http".data)⟩] := by decide
example :
    parse_forwarded_header_value "for=192.0.2.60".data true =
    .ok [⟨none, some (.ipv4 3221226044 none), none, none⟩] := by decide
example :
    parse_forwarded_header_value "for=1.2.3.4;for=5.6.7.8".data false =
    .error (.duplicateParameter "for".data) := by decide
example :
    parse_forwarded_header_value "for=1.2.3.4;for=5.6.7.8".data true =
    .error (.duplicateParameter "for".data) := by decide
example :
    parse_forwarded_header_value ("for=".data ++ '"' :: "1.2.3.4:_secret".data ++ ['"']) true =
    .error (.valueError "invalid literal for int") := by decide
example :
    parse_forwarded_header_value "for=unknown".data true =
    .ok [⟨none, some (.str "unknown".data), none, none⟩] := by decide
example :
    parse_forwarded_header_value ("proto=".data ++ '"' :: "http".data ++ ['"']) false =
    .ok [⟨none, none, none, some (.str ('"' :: "http".data ++ ['"']))⟩] := by decide

/-! ## `parse_content_type` (src/http_lib/parse/header/content_type.py) -/

structure MTParam where
  name : List Char
  value : FwdValue
deriving DecidableEq

/-- `parameter = parameter-name "=" parameter-value` with
`parameter-value = ( token / quoted-string )`. -/
def mtParamSplit (s : List Char) : Option (MTParam × List Char) :=
  match tokenSplit s with
  | none => none
  | some (n, r1) =>
    match r1 with
    | '=' :: r2 =>
      (match valueSplit r2 with
       | some (v, r3) => some (⟨n, v⟩, r3)
       | none => none)
    | _ => none

/-- `parameters = *( OWS ";" OWS [ parameter ] )`, greedy. -/
def mtParamsAux : Nat → List Char → List MTParam × List Char
  | 0, s => ([], s)
  | fuel + 1, s =>
    match s.dropWhile isOwsChar with
    | ';' :: r2 =>
      let r3 := r2.dropWhile isOwsChar
      (match mtParamSplit r3 with
       | some (p, r4) =>
         let (ps, r5) := mtParamsAux fuel r4
         (p :: ps, r5)
       | none => mtParamsAux fuel r3)
    | _ => ([], s)

structure MediaTypeParse where
  type : List Char
  subtype : List Char
  params : List MTParam
deriving DecidableEq

/-- Modelled from the spec: the RFC 9110 `Content-Type` rule lives in the
external grammar engine, whose `evaluate` contract "fails with a
`GrammarMismatch` error if the source does not satisfy the named rule's
formal grammar over its entire length"; the grammar itself is
`media-type = type "/" subtype parameters` with `type`/`subtype` tokens.
Under this contract the source's fallback branch returning `None` for a
falsy node is unreachable. -/
def contentTypeEvaluate (s : List Char) : Except PyErr MediaTypeParse :=
  match tokenSplit s with
  | none => .error (.grammarMismatch "Content-Type")
  | some (t, r1) =>
    match r1 with
    | '/' :: r2 =>
      (match tokenSplit r2 with
       | none => .error (.grammarMismatch "Content-Type")
       | some (st, r3) =>
         match mtParamsAux (r3.length + 1) r3 with
         | (ps, []) => .ok ⟨t, st, ps⟩
         | _ => .error (.grammarMismatch "Content-Type"))
    | _ => .error (.grammarMismatch "Content-Type")

structure MediaType where
  type : List Char
  subtype : List Char
  parameters : List (List Char × List Char)
deriving DecidableEq

/-- `parse_content_type(content_type_value)`: `None` for an empty value,
otherwise the walked media type; a quoted parameter value is the source
slice between the quote characters, an unquoted one its token text. -/
def parse_content_type (s : List Char) : Except PyErr (Option MediaType) :=
  if s = [] then .ok none
  else
    match contentTypeEvaluate s with
    | .error e => .error e
    | .ok mt =>
      .ok (some ⟨mt.type, mt.subtype,
        mt.params.map (fun p =>
          (p.name, if p.value.quoted then (p.value.raw.drop 1).dropLast else p.value.raw))⟩)

example :
    parse_content_type "text/html; charset=UTF-8".data =
    .ok (some ⟨"text".data, "html".data, [("charset".data, "UTF-8".data)]⟩) := by decide
example :
    parse_content_type ("text/html; name=".data ++ '"' :: "a;b".data ++ ['"']) =
    .ok (some ⟨"text".data, "html".data, [("name".data, "a;b".data)]⟩) := by decide
example : parse_content_type [] = .ok none := by decide
example : parse_content_type "/".data = .error (.grammarMismatch "Content-Type") := by decide

/-! ## Start lines (src/http_lib/structures/message.py, RFC 9112 rules) -/

/-- `reason-phrase` character: `HTAB / SP / VCHAR / obs-text`. -/
def isReasonChar (c : Char) : Bool :=
  c = '\t' ∨ c = ' ' ∨ (0x21 ≤ c.toNat ∧ c.toNat ≤ 0x7E) ∨
  (0x80 ≤ c.toNat ∧ c.toNat ≤ 0xFF)

/-- `HTTP-version = HTTP-name "/" DIGIT "." DIGIT` with the case-sensitive
`HTTP-name = %x48.54.54.50`. -/
def httpVersionSplit : List Char → Option (List Char × List Char)
  | a :: b :: c :: d :: e :: d1 :: f :: d2 :: rest =>
    if a = 'H' ∧ b = 'T' ∧ c = 'T' ∧ d = 'P' ∧ e = '/' ∧
       isDigitChar d1 ∧ f = '.' ∧ isDigitChar d2 then
      some ([a, b, c, d, e, d1, f, d2], rest)
    else none
  | _ => none

/-- The `SP status-code SP [ reason-phrase ]` tail of `status-line`; the
whole input must be consumed, so a present reason phrase is the entire
remainder. -/
def statusTailSplit : List Char → Option (List Char × Option (List Char))
  | ' ' :: c1 :: c2 :: c3 :: ' ' :: rest =>
    if isDigitChar c1 ∧ isDigitChar c2 ∧ isDigitChar c3 then
      match rest with
      | [] => some ([c1, c2, c3], none)
      | _ => if rest.all isReasonChar then some ([c1, c2, c3], some rest) else none
    else none
  | _ => none

/-- `status-line = HTTP-version SP status-code SP [ reason-phrase ]` over the
whole input. -/
def statusLineSplit (s : List Char) : Option (List Char × List Char × Option (List Char)) :=
  match httpVersionSplit s with
  | none => none
  | some (v, r) =>
    match statusTailSplit r with
    | some (code, reason) => some (v, code, reason)
    | none => none

/-- Modelled from the spec: the `request-target` alternatives of the external
RFC 9112 ruleset all consist of visible non-space characters, approximated
here by the byte class `%x21-7E`. -/
def isTargetChar (c : Char) : Bool := 0x21 ≤ c.toNat ∧ c.toNat ≤ 0x7E

/-- `request-line = method SP request-target SP HTTP-version` over the whole
input, with `method = token`. -/
def requestLineSplit (s : List Char) : Option (List Char × List Char × List Char) :=
  match tokenSplit s with
  | none => none
  | some (m, r1) =>
    match r1 with
    | ' ' :: r2 =>
      let t := r2.takeWhile isTargetChar
      let r3 := r2.dropWhile isTargetChar
      if t = [] then none
      else
        match r3 with
        | ' ' :: r4 =>
          (match httpVersionSplit r4 with
           | some (v, []) => some (m, t, v)
           | _ => none)
        | _ => none
    | _ => none

structure RequestLine where
  method : List Char
  request_target : List Char
  http_version : List Char
deriving DecidableEq

structure StatusLine where
  http_version : List Char
  status_code : Nat
  reason_phrase : Option (List Char)
deriving DecidableEq

inductive StartLine where
  | request (rl : RequestLine)
  | status (sl : StatusLine)
deriving DecidableEq

/-- `StartLine.from_bytes(data)`: evaluate the `start-line` rule (the two
alternatives match disjoint inputs) and build the corresponding variant as
`from_abnf_node` does; the status code is converted with `int`. -/
def StartLine.from_bytes (s : List Char) : Except PyErr StartLine :=
  match requestLineSplit s with
  | some (m, t, v) => .ok (.request ⟨m, t, v⟩)
  | none =>
    match statusLineSplit s with
    | some (v, code, reason) =>
      (match decValueQ code with
       | some n => .ok (.status ⟨v, n, reason⟩)
       | none => .error (.valueError "invalid literal for int"))
    | none => .error (.grammarMismatch "start-line")

/-- `StatusLine.__bytes__`: `b' '.join([http_version.encode(),
str(status_code).encode(), reason_phrase.encode()])`; a `None` reason phrase
makes the attribute access fail. -/
def StatusLine.toBytes (sl : StatusLine) : Except PyErr (List Char) :=
  match sl.reason_phrase with
  | none => .error (.attributeError "NoneType object has no attribute encode")
  | some r => .ok (sl.http_version ++ ' ' :: decRender sl.status_code ++ ' ' :: r)

example :
    StartLine.from_bytes "HTTP/1.1 200 OK".data =
    .ok (.status ⟨"HTTP/1.1".data, 200, some "OK".data⟩) := by decide
example :
    StartLine.from_bytes "HTTP/1.1 200 ".data =
    .ok (.status ⟨"HTTP/1.1".data, 200, none⟩) := by decide
example :
    StartLine.from_bytes "GET /x HTTP/1.1".data =
    .ok (.request ⟨"GET".data, "/x".data, "HTTP/1.1".data⟩) := by decide
example :
    StatusLine.toBytes ⟨"HTTP/1.1".data, 7, some "A".data⟩ = .ok "HTTP/1.1 7 A".data := by decide
example :
    StartLine.from_bytes "HTTP/1.1 7 A".data = .error (.grammarMismatch "start-line") := by decide

/-! ## `parse_uri` (src/http_lib/parse/uri.py) -/

structure DomainProperties where
  registered_domain : Option (List Char)
  subdomain : Option (List Char)
  effective_top_level_domain : Option (List Char)
deriving DecidableEq

structure ParsedURI where
  scheme : List Char
  host : Option (List Char)
  path : List Char
  query : List Char
  fragment : List Char
  username : Option (List Char)
  password : Option (List Char)
  port : Option Nat
  registered_domain : Option (List Char)
  subdomain : Option (List Char)
  top_level_domain : Option (List Char)
deriving DecidableEq

def isSchemeChar (c : Char) : Bool :=
  isAlphaChar c ∨ isDigitChar c ∨ c = '+' ∨ c = '-' ∨ c = '.'

/-- The text before the first occurrence of `sep`, and the remainder after it
when present (`str.partition`). -/
def splitFirst (sep : Char) : List Char → List Char × Option (List Char)
  | [] => ([], none)
  | c :: rest =>
    if c = sep then ([], some rest)
    else
      let (a, b) := splitFirst sep rest
      (c :: a, b)

/-- The text before and after the last occurrence of `sep`
(`str.rpartition`), `none` if `sep` is absent. -/
def rsplitLast (sep : Char) : List Char → Option (List Char × List Char)
  | [] => none
  | c :: rest =>
    match rsplitLast sep rest with
    | some (a, b) => some (c :: a, b)
    | none => if c = sep then some ([], rest) else none

structure UrlSplitResult where
  scheme : List Char
  netloc : List Char
  path : List Char
  query : List Char
  fragment : List Char
deriving DecidableEq

/-- `urllib.parse.urlparse` component splitting: a leading
`scheme:` (alphabetic first character, scheme characters throughout,
lower-cased), a `//netloc` delimited by `/?#`, then fragment and query
splits. -/
def urlsplitModel (url : List Char) : UrlSplitResult :=
  let (scheme, rest) :=
    match splitFirst ':' url with
    | (pre, some r) =>
      if pre ≠ [] ∧ isAlphaChar (pre.headD ' ') ∧ pre.all isSchemeChar then
        (lowerStr pre, r)
      else ([], url)
    | (_, none) => ([], url)
  let (netloc, rest2) :=
    match rest with
    | '/' :: '/' :: r =>
      let nl := r.takeWhile (fun c => ¬(c = '/' ∨ c = '?' ∨ c = '#'))
      (nl, r.drop nl.length)
    | _ => (([] : List Char), rest)
  let (beforeFrag, fragment) :=
    match splitFirst '#' rest2 with
    | (a, some f) => (a, f)
    | (a, none) => (a, [])
  let (path, query) :=
    match splitFirst '?' beforeFrag with
    | (a, some q) => (a, q)
    | (a, none) => (a, [])
  ⟨scheme, netloc, path, query, fragment⟩

/-- `ParseResult.username`: the userinfo (before the last `@`) up to its
first `:`. -/
def urlUsername (nl : List Char) : Option (List Char) :=
  match rsplitLast '@' nl with
  | some (ui, _) => some (splitFirst ':' ui).1
  | none => none

/-- `ParseResult.password`: the userinfo after its first `:`. -/
def urlPassword (nl : List Char) : Option (List Char) :=
  match rsplitLast '@' nl with
  | some (ui, _) => (splitFirst ':' ui).2
  | none => none

/-- `ParseResult._hostinfo`'s port string: after the last `@`, the text after
`]:` for a bracketed host, else after the first `:`; empty means absent. -/
def urlPortStr (nl : List Char) : Option (List Char) :=
  let hostinfo :=
    match rsplitLast '@' nl with
    | some (_, h) => h
    | none => nl
  let portStr :=
    match splitFirst '[' hostinfo with
    | (_, some bracketed) =>
      (match splitFirst ']' bracketed with
       | (_, some afterBr) => ((splitFirst ':' afterBr).2).getD []
       | (_, none) => [])
    | (_, none) => ((splitFirst ':' hostinfo).2).getD []
  if portStr = [] then none else some portStr

/-- `ParseResult.port`: decimal conversion with the 0-65535 range check. -/
def urlPort (nl : List Char) : Except PyErr (Option Nat) :=
  match urlPortStr nl with
  | none => .ok none
  | some ps =>
    match decValueQ ps with
    | some n => if n ≤ 65535 then .ok (some n) else .error (.valueError "Port out of range 0-65535")
    | none => .error (.valueError "invalid literal for int")

/-- `'.'.join` rendering of a 32-bit IPv4 value (`str(IPv4Address)`). -/
def ipv4Render (a : Nat) : List Char :=
  decRender (a / 16777216 % 256) ++ '.' :: decRender (a / 65536 % 256) ++
  '.' :: decRender (a / 256 % 256) ++ '.' :: decRender (a % 256)

def joinColon : List (List Char) → List Char
  | [] => []
  | [x] => x
  | x :: xs => x ++ ':' :: joinColon xs

/-- The leftmost maximal run of zero hextets (CPython compresses it when its
length exceeds one). -/
def bestZeroRunAux : List Nat → Nat → Nat × Nat → Nat × Nat → Nat × Nat
  | [], _, cur, best => if cur.2 > best.2 then cur else best
  | g :: rest, i, (cs, cl), best =>
    if g = 0 then
      bestZeroRunAux rest (i + 1) (if cl = 0 then (i, 1) else (cs, cl + 1)) best
    else
      bestZeroRunAux rest (i + 1) (0, 0) (if cl > best.2 then (cs, cl) else best)

def bestZeroRun (gs : List Nat) : Nat × Nat := bestZeroRunAux gs 0 (0, 0) (0, 0)

/-- `str(IPv6Address)`: lowercase hextets with the leftmost longest zero run
(of length at least two) compressed to `::`. -/
def ipv6Render (a : Nat) : List Char :=
  let gs := (List.range 8).map (fun i => a / 65536 ^ (7 - i) % 65536)
  let (bs, bl) := bestZeroRun gs
  if bl > 1 then
    joinColon ((gs.take bs).map hexRender) ++ ':' :: ':' ::
      joinColon ((gs.drop (bs + bl)).map hexRender)
  else joinColon (gs.map hexRender)

/-- `str(uri_host)` for each `parse_host` result alternative. -/
def hostStr : HostAddress → List Char
  | .ipv4 a => ipv4Render a
  | .ipv6 a => ipv6Render a
  | .ipvFutureStr t => t
  | .regName t => t

/-- `parse_uri(uri_string, public_suffix_trie)`.  The public-suffix
collaborator is modelled from the spec as
`decompose(host) -> Option DomainProperties` with `none` for "absence of a
match", matching the source's `DomainProperties | None` annotation; the
source dereferences the result unconditionally, so `none` is an
`AttributeError`. -/
def parse_uri (uri : List Char)
    (publicSuffixTrie : Option (List Char → Option DomainProperties)) :
    Except PyErr ParsedURI :=
  let pu := urlsplitModel uri
  let hostAndDomE : Except PyErr (Option (List Char) × Option DomainProperties) :=
    if pu.netloc ≠ [] then
      match parse_host pu.netloc with
      | .error e => .error e
      | .ok (uriHost, _) =>
        let host := hostStr uriHost
        match uriHost, publicSuffixTrie with
        | .regName _, some trie =>
          (match trie host with
           | some dp => .ok (some host, some dp)
           | none => .error (.attributeError "NoneType object has no attribute registered_domain"))
        | .ipv6 _, _ => .ok (some ('[' :: host ++ [']']), none)
        | _, _ => .ok (some host, none)
    else .ok (none, none)
  match hostAndDomE with
  | .error e => .error e
  | .ok (host, dom) =>
    match urlPort pu.netloc with
    | .error e => .error e
    | .ok portO =>
      let port :=
        if portO = none ∨ portO = some 0 then
          if pu.scheme = "http".data then some 80
          else if pu.scheme = "https".data then some 443
          else portO
        else portO
      .ok { scheme := pu.scheme, host := host, path := pu.path, query := pu.query,
            fragment := pu.fragment,
            username := urlUsername pu.netloc, password := urlPassword pu.netloc,
            port := port,
            registered_domain := dom.bind (fun d => d.registered_domain),
            subdomain := dom.bind (fun d => d.subdomain),
            top_level_domain := dom.bind (fun d => d.effective_top_level_domain) }

example :
    parse_uri "http://user:pw@example.com/path".data none =
    .error (.grammarMismatch "host") := by decide
example :
    parse_uri "http://example.com/path".data none =
    .ok ⟨"http".data, some "example.com".data, "/path".data, [], [],
         none, none, some 80, none, none, none⟩ := by decide
example :
    parse_uri "http://example.com/".data (some (fun _ => none)) =
    .error (.attributeError "NoneType object has no attribute registered_domain") := by decide
example :
    parse_uri "http://example.com/".data
      (some (fun _ => some ⟨some "example.com".data, some [], some "com".data⟩)) =
    .ok ⟨"http".data, some "example.com".data, "/".data, [], [],
         none, none, some 80, some "example.com".data, some [], some "com".data⟩ := by decide

/-! ## Helper lemmas -/

theorem digitBounds {c : Char} (h : isDigitChar c = true) : 48 ≤ c.toNat ∧ c.toNat ≤ 57 := by
  simpa [isDigitChar] using h

theorem digitCharOf_toNat {c : Char} (h : isDigitChar c = true) :
    digitCharOf (c.toNat - 48) = c := by
  have hb := digitBounds h
  have h48 : 48 + (c.toNat - 48) = c.toNat := by omega
  rw [digitCharOf, h48, Char.ofNat_toNat]

theorem readExactly_eq_some {n : Nat} {s pre post : List Char}
    (h : readExactly n s = some (pre, post)) : pre.length = n ∧ s = pre ++ post := by
  unfold readExactly at h
  split at h
  · rename_i hle
    rw [Option.some.injEq, Prod.mk.injEq] at h
    obtain ⟨h1, h2⟩ := h
    subst h1
    subst h2
    refine ⟨by simp [Nat.min_eq_left hle], (List.take_append_drop n s).symm⟩
  · exact absurd h (by simp)

/-! ## Claim theorems -/

/-- C1: the claim states that two or more `Content-Length`, two or more
`Transfer-Encoding`, or two or more `Trailers` headers make body extraction
fail with a `FramingAmbiguity` error before any body bytes are read.  The
code violates the `Transfer-Encoding` part: the duplicate check tests the
`transfer_encoding` local, which is never assigned, so a duplicated
`Transfer-Encoding: chunked` pair scans successfully and the body is framed
and read normally; the `Content-Length` and `Trailers` duplicate checks do
fail as claimed. -/
theorem c1_duplicate_transfer_encoding_not_rejected :
    scanFramingHeaders [("Transfer-Encoding".data, "chunked".data),
                        ("Transfer-Encoding".data, "chunked".data)] =
      .ok { contentLength := none, transferEncoding := none, chunked := true,
            includesTrailers := none } ∧
    message_body_from_reader [("Transfer-Encoding".data, "chunked".data),
                              ("Transfer-Encoding".data, "chunked".data)]
      "4\r\nWiki\r\n0\r\n\r\n".data =
      .ok ["4\r\nWiki\r\n".data, "0\r\n\r\n".data] ∧
    scanFramingHeaders [("Content-Length".data, "4".data),
                        ("Content-Length".data, "4".data)] =
      .error (.framingAmbiguity "Content length has already been set.") ∧
    scanFramingHeaders [("Trailers".data, "x".data), ("Trailers".data, "x".data)] =
      .error (.framingAmbiguity "Trailers has already been set.") :=
  ⟨by decide, by decide, by decide, by decide⟩

/-- C2: with headers `[("Transfer-Encoding", "chunked")]` and stream
`"4\r\nWiki\r\n0\r\n\r\n"` the extractor emits exactly the two units
`"4\r\nWiki\r\n"` and `"0\r\n\r\n"`; and in general each nonzero chunk's
emitted unit is the chunk-size line concatenated verbatim with exactly
`size + 2` following bytes — no framing metadata is stripped. -/
theorem c2_chunked_framing :
    (message_body_from_reader [("Transfer-Encoding".data, "chunked".data)]
        "4\r\nWiki\r\n0\r\n\r\n".data =
      .ok ["4\r\nWiki\r\n".data, "0\r\n\r\n".data]) ∧
    (∀ (fuel : Nat) (s line rest chunkBytes rest2 : List Char) (k : Nat),
      readUntilCRLF s = some (line, rest) →
      hexValueQ (line.dropLast.dropLast) = some (k + 1) →
      readExactly (k + 1 + 2) rest = some (chunkBytes, rest2) →
      chunkBytes.length = k + 1 + 2 ∧
      readChunksAux (fuel + 1) s =
        (readChunksAux fuel rest2).map
          (fun r => ((line ++ chunkBytes) :: r.1, r.2))) := by
  constructor
  · decide
  · intro fuel s line rest chunkBytes rest2 k h1 h2 h3
    refine ⟨(readExactly_eq_some h3).1, ?_⟩
    simp only [readChunksAux, h1, h2, h3]
    cases hrec : readChunksAux fuel rest2 with
    | ok v => simp [Except.map]
    | error e => simp [Except.map]

/-- Witness for C2: the general single-chunk step instantiated on the
example stream. -/
theorem c2_chunked_framing_witness :
    "Wiki\r\n".data.length = 3 + 1 + 2 ∧
    readChunksAux 1 "4\r\nWiki\r\n0\r\n\r\n".data =
      (readChunksAux 0 "0\r\n\r\n".data).map
        (fun r => (("4\r\n".data ++ "Wiki\r\n".data) :: r.1, r.2)) :=
  c2_chunked_framing.2 0 "4\r\nWiki\r\n0\r\n\r\n".data "4\r\n".data
    "Wiki\r\n0\r\n\r\n".data "Wiki\r\n".data "0\r\n\r\n".data 3
    (by decide) (by decide) (by decide)

theorem walkPairs_error_of_dup (useNode : Bool) :
    ∀ (pairs : List AnnPair) (acc : List (List Char × FwdVal)),
      (acc.map Prod.fst).Nodup →
      ¬ (acc.map Prod.fst ++ pairs.map (fun p => lowerStr p.name)).Nodup →
      ∃ e, walkPairs useNode pairs acc = .error e := by
  intro pairs
  induction pairs with
  | nil =>
    intro acc hacc hdup
    simp only [List.map_nil, List.append_nil] at hdup
    exact absurd hacc hdup
  | cons p rest ih =>
    intro acc hacc hdup
    by_cases hmem : lowerStr p.name ∈ acc.map Prod.fst
    · exact ⟨.duplicateParameter (lowerStr p.name), by simp [walkPairs, hmem]⟩
    · cases hres : resolvePairValue useNode (lowerStr p.name) p with
      | error e => exact ⟨e, by simp [walkPairs, hmem, hres]⟩
      | ok v =>
        have hstep : walkPairs useNode (p :: rest) acc =
            walkPairs useNode rest (acc ++ [(lowerStr p.name, v)]) := by
          simp [walkPairs, hmem, hres]
        rw [hstep]
        apply ih
        · have : (acc.map Prod.fst ++ [lowerStr p.name]).Nodup := by
            rw [List.nodup_append]
            refine ⟨hacc, List.nodup_singleton _, ?_⟩
            intro a ha hb
            rw [List.mem_singleton] at hb
            subst hb
            exact hmem ha
          simpa using this
        · simpa [List.map_append, List.append_assoc] using hdup

theorem mapExcept_error_of_mem {α β : Type} (f : α → Except PyErr β) :
    ∀ (l : List α) (x : α), x ∈ l → (∃ e, f x = .error e) →
      ∃ e, mapExcept f l = .error e := by
  intro l
  induction l with
  | nil => intro x hx; simp at hx
  | cons y ys ih =>
    rintro x hx ⟨e, hfe⟩
    rcases List.mem_cons.1 hx with rfl | hmem
    · exact ⟨e, by simp [mapExcept, hfe]⟩
    · cases hfy : f y with
      | error e2 => exact ⟨e2, by simp [mapExcept, hfy]⟩
      | ok v =>
        obtain ⟨e3, h3⟩ := ih x hmem ⟨e, hfe⟩
        exact ⟨e3, by simp [mapExcept, hfy, h3]⟩

theorem parse_forwarded_error_of_dup_annotated
    (s : List Char) (elems : List (List AnnPair)) (useNode : Bool)
    (hparse : forwardedParseAll s = .ok elems)
    (hdup : ∃ e ∈ elems, ¬ (e.map (fun p => lowerStr p.name)).Nodup) :
    ∃ err, parse_forwarded_header_value s useNode = .error err := by
  obtain ⟨e, he, hdup⟩ := hdup
  have hfe : ∃ err, (fun pairs =>
      match walkPairs useNode pairs [] with
      | .error err => .error err
      | .ok pvs => buildElement pvs {}) e = (.error err : Except PyErr ForwardedElementR) := by
    obtain ⟨err, herr⟩ := walkPairs_error_of_dup useNode e [] (by simp) (by simpa using hdup)
    exact ⟨err, by simp [herr]⟩
  obtain ⟨err, herr⟩ := mapExcept_error_of_mem
    (fun pairs =>
      match walkPairs useNode pairs [] with
      | .error err => .error err
      | .ok pvs => buildElement pvs {}) elems e he hfe
  exact ⟨err, by simp [parse_forwarded_header_value, hparse, herr]⟩

theorem mapExcept_ok_mem {α β : Type} (f : α → Except PyErr β) :
    ∀ (l : List α) (res : List β), mapExcept f l = .ok res →
      ∀ x ∈ l, ∃ y ∈ res, f x = .ok y := by
  intro l
  induction l with
  | nil => intro res _ x hx; simp at hx
  | cons a as ih =>
    intro res h x hx
    rw [mapExcept] at h
    cases hfa : f a with
    | error e => rw [hfa] at h; simp at h
    | ok y =>
      rw [hfa] at h
      cases hrest : mapExcept f as with
      | error e => rw [hrest] at h; simp at h
      | ok ys =>
        rw [hrest] at h
        injection h with h'
        subst h'
        rcases List.mem_cons.1 hx with rfl | hmem
        · exact ⟨y, List.mem_cons_self _ _, hfa⟩
        · obtain ⟨z, hz, hfz⟩ := ih ys hrest x hmem
          exact ⟨z, List.mem_cons_of_mem _ hz, hfz⟩

theorem annotatePair_name {p : FwdPair} {ap : AnnPair} (h : annotatePair p = .ok ap) :
    ap.name = p.name := by
  unfold annotatePair at h
  split at h
  · cases hn : nodeParseAll p.value.stripped with
    | some np =>
      rw [hn] at h
      injection h with h'
      rw [← h']
    | none => rw [hn] at h; simp at h
  · injection h with h'
    rw [← h']

theorem mapExcept_annotate_names :
    ∀ (e : List FwdPair) (ae : List AnnPair),
      mapExcept annotatePair e = .ok ae →
      ae.map (fun p => lowerStr p.name) = e.map (fun p => lowerStr p.name) := by
  intro e
  induction e with
  | nil =>
    intro ae h
    simp only [mapExcept, Except.ok.injEq] at h
    subst h
    rfl
  | cons p rest ih =>
    intro ae h
    rw [mapExcept] at h
    cases hfp : annotatePair p with
    | error e2 => rw [hfp] at h; simp at h
    | ok y =>
      rw [hfp] at h
      cases hrest : mapExcept annotatePair rest with
      | error e2 => rw [hrest] at h; simp at h
      | ok ys =>
        rw [hrest] at h
        injection h with h'
        subst h'
        simp only [List.map_cons]
        rw [annotatePair_name hfp, ih ys hrest]

/-- C3 counterexample: a duplicated parameter name need not surface as the
duplicate-parameter error.  `for=xyz;for=xyz` is grammar-valid with the name
`for` twice in one element, yet both modes fail with the node-grammar
mismatch raised by the annotation pass of `parse_all` — which runs before
the duplicate check, in the raw-string mode too — and
`a=b,for=1.2.3.4;for=5.6.7.8` fails with the unknown-keyword `TypeError`
raised while building the earlier element. -/
theorem c3_duplicate_error_preempted_counterexample :
    forwardedValueSplit "for=xyz;for=xyz".data =
      ([[⟨"for".data, ⟨"xyz".data, false⟩⟩, ⟨"for".data, ⟨"xyz".data, false⟩⟩]], []) ∧
    parse_forwarded_header_value "for=xyz;for=xyz".data false =
      .error (.grammarMismatch "node") ∧
    parse_forwarded_header_value "for=xyz;for=xyz".data true =
      .error (.grammarMismatch "node") ∧
    (PyErr.grammarMismatch "node" ≠ .duplicateParameter "for".data) ∧
    parse_forwarded_header_value "a=b,for=1.2.3.4;for=5.6.7.8".data false =
      .error (.typeError "unexpected keyword argument") ∧
    (PyErr.typeError "unexpected keyword argument" ≠ .duplicateParameter "for".data) :=
  ⟨by decide, by decide, by decide, by decide, by decide, by decide⟩

/-- C3 (amended): every Forwarded header value whose `ForwardedValue`
grammar match contains a forwarded-element with the same lower-cased
parameter name twice makes `parse_forwarded_header_value` fail, in both the
raw-string mode and the value-parsing mode; the failure is the
duplicate-parameter error itself when nothing processed earlier fails first
— in particular on the spec's example `"for=1.2.3.4;for=5.6.7.8"` — but it
can be preempted by the node-annotation pass or by an earlier element's
construction. -/
theorem c3_duplicate_forwarded_parameter_amended :
    (∀ (s : List Char) (elems : List (List FwdPair)) (useNode : Bool),
      forwardedValueSplit s = (elems, []) →
      (∃ e ∈ elems, ¬ (e.map (fun p => lowerStr p.name)).Nodup) →
      ∃ err, parse_forwarded_header_value s useNode = .error err) ∧
    parse_forwarded_header_value "for=1.2.3.4;for=5.6.7.8".data false =
      .error (.duplicateParameter "for".data) ∧
    parse_forwarded_header_value "for=1.2.3.4;for=5.6.7.8".data true =
      .error (.duplicateParameter "for".data) := by
  refine ⟨?_, by decide, by decide⟩
  rintro s elems useNode hgram ⟨e, he, hdup⟩
  cases hpa : forwardedParseAll s with
  | error err => exact ⟨err, by simp [parse_forwarded_header_value, hpa]⟩
  | ok aelems =>
    have hpa2 : mapExcept (fun e2 => mapExcept annotatePair e2) elems = .ok aelems := by
      unfold forwardedParseAll at hpa
      rw [hgram] at hpa
      exact hpa
    obtain ⟨ae, hae, hann⟩ := mapExcept_ok_mem
      (fun e2 => mapExcept annotatePair e2) elems aelems hpa2 e he
    have hnames := mapExcept_annotate_names e ae hann
    have hdup2 : ¬ (ae.map (fun p => lowerStr p.name)).Nodup := by
      rw [hnames]
      exact hdup
    exact parse_forwarded_error_of_dup_annotated s aelems useNode hpa ⟨ae, hae, hdup2⟩

/-- Witness for C3: the amended general statement instantiated on the spec's
example value. -/
theorem c3_duplicate_forwarded_parameter_amended_witness :
    ∃ err, parse_forwarded_header_value "for=1.2.3.4;for=5.6.7.8".data false = .error err :=
  c3_duplicate_forwarded_parameter_amended.1 "for=1.2.3.4;for=5.6.7.8".data
    [[⟨"for".data, ⟨"1.2.3.4".data, false⟩⟩, ⟨"for".data, ⟨"5.6.7.8".data, false⟩⟩]] false
    (by decide)
    ⟨[⟨"for".data, ⟨"1.2.3.4".data, false⟩⟩, ⟨"for".data, ⟨"5.6.7.8".data, false⟩⟩],
     by decide, by decide⟩

/-- C4: `parse_content_type` returns `None` exactly for the empty value; a
non-empty value that fails the Content-Type grammar surfaces the grammar's
`GrammarMismatch` error rather than returning `None`. -/
theorem c4_content_type_none_iff_empty :
    (∀ s : List Char, parse_content_type s = .ok none ↔ s = []) ∧
    (∀ (s : List Char) (e : PyErr), s ≠ [] → contentTypeEvaluate s = .error e →
      parse_content_type s = .error e) := by
  constructor
  · intro s
    constructor
    · intro h
      by_contra hne
      unfold parse_content_type at h
      rw [if_neg hne] at h
      cases hev : contentTypeEvaluate s <;> rw [hev] at h <;> simp at h
    · rintro rfl
      decide
  · intro s e hne hev
    unfold parse_content_type
    rw [if_neg hne, hev]

/-- Witness for C4: the malformed non-empty value `"/"`. -/
theorem c4_content_type_none_iff_empty_witness :
    ("/".data ≠ [] ∧ contentTypeEvaluate "/".data = .error (.grammarMismatch "Content-Type")) ∧
    parse_content_type "/".data = .error (.grammarMismatch "Content-Type") :=
  ⟨⟨by decide, by decide⟩,
   c4_content_type_none_iff_empty.2 "/".data (.grammarMismatch "Content-Type")
     (by decide) (by decide)⟩

/-- C5: the claim says each `for`/`by` node value resolves to an identity
paired with an optional port, the port being a decimal integer or an opaque
obfuscated-port string.  The IPv4 example resolves as claimed, but an
obfuscated node-port raises `ValueError` from the unconditional `int`
conversion, and an `unknown`/obfuscated nodename is stored as the plain node
string, not as an `(identity, port)` pair. -/
theorem c5_forwarded_node_resolution :
    parse_forwarded_header_value "for=192.0.2.60".data true =
      .ok [⟨none, some (.ipv4 3221226044 none), none, none⟩] ∧
    parse_forwarded_header_value ("for=".data ++ '"' :: "1.2.3.4:_secret".data ++ ['"']) true =
      .error (.valueError "invalid literal for int") ∧
    parse_forwarded_header_value "for=unknown".data true =
      .ok [⟨none, some (.str "unknown".data), none, none⟩] :=
  ⟨by decide, by decide, by decide⟩

theorem walkPairs_false_eq (pairs : List AnnPair) :
    ∀ (acc pvs : List (List Char × FwdVal)),
      walkPairs false pairs acc = .ok pvs →
      pvs = acc ++ pairs.map (fun p => (lowerStr p.name, FwdVal.str p.value.raw)) := by
  induction pairs with
  | nil =>
    intro acc pvs h
    simp only [walkPairs, Except.ok.injEq] at h
    simp [h.symm]
  | cons p rest ih =>
    intro acc pvs h
    by_cases hmem : lowerStr p.name ∈ acc.map Prod.fst
    · simp [walkPairs, hmem] at h
    · have hres : resolvePairValue false (lowerStr p.name) p = .ok (.str p.value.raw) := by
        simp [resolvePairValue]
      simp only [walkPairs, hmem, if_false, hres] at h
      have := ih (acc ++ [(lowerStr p.name, FwdVal.str p.value.raw)]) pvs h
      simpa [List.append_assoc] using this

theorem walkPairs_names_nodup (useNode : Bool) (pairs : List AnnPair) :
    ∀ (acc pvs : List (List Char × FwdVal)),
      walkPairs useNode pairs acc = .ok pvs →
      (acc.map Prod.fst).Nodup → (pvs.map Prod.fst).Nodup := by
  induction pairs with
  | nil =>
    intro acc pvs h hacc
    simp only [walkPairs, Except.ok.injEq] at h
    rwa [h] at hacc
  | cons p rest ih =>
    intro acc pvs h hacc
    by_cases hmem : lowerStr p.name ∈ acc.map Prod.fst
    · simp [walkPairs, hmem] at h
    · cases hres : resolvePairValue useNode (lowerStr p.name) p with
      | error e => simp [walkPairs, hmem, hres] at h
      | ok v =>
        simp only [walkPairs, hmem, if_false, hres] at h
        apply ih _ _ h
        have : (acc.map Prod.fst ++ [lowerStr p.name]).Nodup := by
          rw [List.nodup_append]
          refine ⟨hacc, List.nodup_singleton _, ?_⟩
          intro a ha hb
          rw [List.mem_singleton] at hb
          subst hb
          exact hmem ha
        simpa using this

theorem setElemField_ok_lookup {e e2 : ForwardedElementR} {n : List Char} {v : FwdVal}
    (h : setElemField e (n, v) = .ok e2) : elemFieldOf e2 n = some v := by
  simp only [setElemField] at h
  split_ifs at h with h1 h2 h3 h4 <;>
    first
      | (subst h
         simp +decide [elemFieldOf, *])
      | (rw [Except.ok.injEq] at h
         subst h
         simp +decide [elemFieldOf, *])
      | simp at h

theorem setElemField_ok_preserve {e e2 : ForwardedElementR} {m n : List Char} {v : FwdVal}
    (h : setElemField e (m, v) = .ok e2) (hne : m ≠ n) :
    elemFieldOf e2 n = elemFieldOf e n := by
  simp only [setElemField] at h
  split_ifs at h with h1 h2 h3 h4 <;>
    first
      | (subst h
         simp only [elemFieldOf]
         split_ifs with g1 g2 g3 g4 <;> simp_all)
      | (rw [Except.ok.injEq] at h
         subst h
         simp only [elemFieldOf]
         split_ifs with g1 g2 g3 g4 <;> simp_all)
      | simp at h

theorem buildElement_preserve :
    ∀ (pvs : List (List Char × FwdVal)) (e0 re : ForwardedElementR) (n : List Char),
      buildElement pvs e0 = .ok re → n ∉ pvs.map Prod.fst →
      elemFieldOf re n = elemFieldOf e0 n := by
  intro pvs
  induction pvs with
  | nil =>
    intro e0 re n h _
    simp only [buildElement, Except.ok.injEq] at h
    rw [h]
  | cons x rest ih =>
    intro e0 re n h hnot
    obtain ⟨m, w⟩ := x
    simp only [buildElement] at h
    cases hset : setElemField e0 (m, w) with
    | error err => rw [hset] at h; simp at h
    | ok e2 =>
      rw [hset] at h
      have hmn : m ≠ n := by
        intro hmn
        subst hmn
        exact hnot (List.mem_cons_self _ _)
      have hnrest : n ∉ rest.map Prod.fst := fun hr => hnot (List.mem_cons_of_mem _ hr)
      have hrec : elemFieldOf re n = elemFieldOf e2 n := ih e2 re n h hnrest
      rw [hrec, setElemField_ok_preserve hset hmn]

theorem buildElement_lookup :
    ∀ (pvs : List (List Char × FwdVal)) (e0 re : ForwardedElementR),
      buildElement pvs e0 = .ok re → (pvs.map Prod.fst).Nodup →
      ∀ nv ∈ pvs, elemFieldOf re nv.1 = some nv.2 := by
  intro pvs
  induction pvs with
  | nil => intro e0 re _ _ nv hnv; simp at hnv
  | cons x rest ih =>
    intro e0 re h hnd nv hnv
    obtain ⟨m, w⟩ := x
    simp only [buildElement] at h
    cases hset : setElemField e0 (m, w) with
    | error err => rw [hset] at h; simp at h
    | ok e2 =>
      rw [hset] at h
      have hnd2 : m ∉ rest.map Prod.fst ∧ (rest.map Prod.fst).Nodup :=
        List.nodup_cons.1 hnd
      rcases List.mem_cons.1 hnv with rfl | hmem
      · show elemFieldOf re m = some w
        have hpres : elemFieldOf re m = elemFieldOf e2 m :=
          buildElement_preserve rest e2 re m h hnd2.1
        rw [hpres]
        exact setElemField_ok_lookup hset
      · exact ih e2 re h hnd2.2 nv hmem

theorem mapExcept_ok_get {α β : Type} (f : α → Except PyErr β) :
    ∀ (l : List α) (res : List β), mapExcept f l = .ok res →
      ∀ (i : Nat) (x : α), l.get? i = some x →
        ∃ y, res.get? i = some y ∧ f x = .ok y := by
  intro l
  induction l with
  | nil => intro res _ i x hx; simp at hx
  | cons a as ih =>
    intro res h i x hx
    rw [mapExcept] at h
    cases hfa : f a with
    | error e => rw [hfa] at h; simp at h
    | ok y =>
      rw [hfa] at h
      cases hrest : mapExcept f as with
      | error e => rw [hrest] at h; simp at h
      | ok ys =>
        rw [hrest] at h
        injection h with h'
        subst h'
        cases i with
        | zero =>
          simp only [List.get?] at hx
          injection hx with hx'
          subst hx'
          exact ⟨y, by simp, hfa⟩
        | succ j =>
          simp only [List.get?] at hx ⊢
          exact ih ys hrest j x hx

/-- C6 counterexample: in raw-string mode a quoted value is stored with its
enclosing quote characters, not unescaped — `proto="http"` stores the
six-character text `"http"` rather than `http`. -/
theorem c6_raw_mode_keeps_quotes_counterexample :
    parse_forwarded_header_value ("proto=".data ++ '"' :: "http".data ++ ['"']) false =
      .ok [⟨none, none, none, some (.str ('"' :: "http".data ++ ['"']))⟩] ∧
    ('"' :: "http".data ++ ['"']) ≠ "http".data :=
  ⟨by decide, by decide⟩

/-- C6 (amended): in raw-string mode every parsed pair stores the value
node's matched source text verbatim — for a quoted-string value this
includes the enclosing quote characters (and any backslashes as written);
an unquoted token value is stored as its literal text. -/
theorem c6_raw_mode_value_text :
    ∀ (s : List Char) (elems : List (List AnnPair)) (res : List ForwardedElementR),
      forwardedParseAll s = .ok elems →
      parse_forwarded_header_value s false = .ok res →
      ∀ (i : Nat) (e : List AnnPair), elems.get? i = some e →
        ∃ re, res.get? i = some re ∧
          ∀ p ∈ e, elemFieldOf re (lowerStr p.name) = some (.str p.value.raw) := by
  intro s elems res hparse hres i e hget
  rw [parse_forwarded_header_value, hparse] at hres
  obtain ⟨re, hre, hf⟩ := mapExcept_ok_get
    (fun pairs =>
      match walkPairs false pairs [] with
      | .error err => .error err
      | .ok pvs => buildElement pvs {}) elems res hres i e hget
  refine ⟨re, hre, ?_⟩
  have hf2 : (match walkPairs false e [] with
      | .error err => .error err
      | .ok pvs => buildElement pvs {}) = Except.ok re := hf
  cases hwalk : walkPairs false e [] with
  | error err => rw [hwalk] at hf2; simp at hf2
  | ok pvs =>
    rw [hwalk] at hf2
    have hpvs := walkPairs_false_eq e [] pvs hwalk
    have hnd : (pvs.map Prod.fst).Nodup :=
      walkPairs_names_nodup false e [] pvs hwalk (by simp)
    intro p hp
    have hmem : (lowerStr p.name, FwdVal.str p.value.raw) ∈ pvs := by
      rw [hpvs]
      simp only [List.nil_append, List.mem_map]
      exact ⟨p, hp, rfl⟩
    exact buildElement_lookup pvs {} re hf2 hnd _ hmem

/-- C7: `parse_host("[::1]:8080")` gives `(IPv6Address("::1"), 8080)` and
`parse_host("example.com")` gives `("example.com", None)`; in general, for
every input matching the `host` grammar on which `parse_host` succeeds, the
matched `uri-host` alternative determines the address constructor and the
optional port is the decimal value of the matched port digits. -/
theorem c7_parse_host :
    parse_host "[::1]:8080".data = .ok (.ipv6 1, some 8080) ∧
    parse_host "example.com".data = .ok (.regName "example.com".data, none) ∧
    (∀ (s : List Char) (hp : HostParse) (h : HostAddress) (p : Option Nat),
      hostParseAll s = some hp → parse_host s = .ok (h, p) →
      altCorresponds hp.alt h ∧ p = hp.port.bind decValueQ) := by
  refine ⟨by decide, by decide, ?_⟩
  intro s hp h p h1 h2
  unfold parse_host at h2
  rw [h1] at h2
  obtain ⟨alt, portO⟩ := hp
  cases portO with
  | none =>
    cases alt with
    | ipv4 t =>
      cases hip : ipv4FromString t with
      | some a =>
        simp only [hip, Except.ok.injEq, Prod.mk.injEq] at h2
        exact ⟨⟨a, hip, h2.1.symm⟩, h2.2.symm⟩
      | none => simp only [hip] at h2; simp at h2
    | ipLiteral inner =>
      cases inner with
      | ipv6 t =>
        cases hip : ipv6FromString t with
        | some a =>
          simp only [hip, Except.ok.injEq, Prod.mk.injEq] at h2
          exact ⟨⟨a, hip, h2.1.symm⟩, h2.2.symm⟩
        | none => simp only [hip] at h2; simp at h2
      | ipvFuture t =>
        simp only [Except.ok.injEq, Prod.mk.injEq] at h2
        exact ⟨h2.1.symm, h2.2.symm⟩
    | regName t =>
      simp only [Except.ok.injEq, Prod.mk.injEq] at h2
      exact ⟨h2.1.symm, h2.2.symm⟩
  | some pt =>
    cases hdv : decValueQ pt with
    | none => simp only [hdv] at h2; simp at h2
    | some np =>
      simp only [hdv] at h2
      cases alt with
      | ipv4 t =>
        cases hip : ipv4FromString t with
        | some a =>
          simp only [hip, Except.ok.injEq, Prod.mk.injEq] at h2
          exact ⟨⟨a, hip, h2.1.symm⟩, by rw [h2.2.symm, Option.bind, hdv]⟩
        | none => simp only [hip] at h2; simp at h2
      | ipLiteral inner =>
        cases inner with
        | ipv6 t =>
          cases hip : ipv6FromString t with
          | some a =>
            simp only [hip, Except.ok.injEq, Prod.mk.injEq] at h2
            exact ⟨⟨a, hip, h2.1.symm⟩, by rw [h2.2.symm, Option.bind, hdv]⟩
          | none => simp only [hip] at h2; simp at h2
        | ipvFuture t =>
          simp only [Except.ok.injEq, Prod.mk.injEq] at h2
          exact ⟨h2.1.symm, by rw [h2.2.symm, Option.bind, hdv]⟩
      | regName t =>
        simp only [Except.ok.injEq, Prod.mk.injEq] at h2
        exact ⟨h2.1.symm, by rw [h2.2.symm, Option.bind, hdv]⟩

/-- Witness for C7: the general correspondence instantiated on
`"[::1]:8080"`. -/
theorem c7_parse_host_witness :
    altCorresponds (UriHostAlt.ipLiteral (.ipv6 "::1".data)) (HostAddress.ipv6 1) ∧
    some 8080 = (some "8080".data).bind decValueQ :=
  c7_parse_host.2.2 "[::1]:8080".data ⟨.ipLiteral (.ipv6 "::1".data), some "8080".data⟩
    (.ipv6 1) (some 8080) (by decide) (by decide)

theorem httpVersionSplit_some {s v r : List Char} (h : httpVersionSplit s = some (v, r)) :
    ∃ d1 d2, isDigitChar d1 = true ∧ isDigitChar d2 = true ∧
      v = ['H', 'T', 'T', 'P', '/', d1, '.', d2] ∧ s = v ++ r := by
  unfold httpVersionSplit at h
  split at h
  · rename_i a b c d e d1 f d2 rest
    split at h
    · rename_i hcond
      obtain ⟨ha, hb, hc, hd, he, hd1, hf, hd2⟩ := hcond
      rw [Option.some.injEq, Prod.mk.injEq] at h
      obtain ⟨hv, hr⟩ := h
      subst ha
      subst hb
      subst hc
      subst hd
      subst he
      subst hf
      subst hr
      exact ⟨d1, d2, hd1, hd2, hv.symm, by rw [hv.symm]; rfl⟩
    · exact absurd h (by simp)
  · exact absurd h (by simp)

theorem statusTailSplit_some {s code : List Char} {reason : Option (List Char)}
    (h : statusTailSplit s = some (code, reason)) :
    ∃ c1 c2 c3 rest, isDigitChar c1 = true ∧ isDigitChar c2 = true ∧ isDigitChar c3 = true ∧
      code = [c1, c2, c3] ∧ s = ' ' :: c1 :: c2 :: c3 :: ' ' :: rest ∧
      ((rest = [] ∧ reason = none) ∨
       (rest ≠ [] ∧ rest.all isReasonChar = true ∧ reason = some rest)) := by
  unfold statusTailSplit at h
  split at h
  · rename_i c1 c2 c3 rest
    split at h
    · rename_i hds
      obtain ⟨h1, h2, h3⟩ := hds
      split at h
      · rw [Option.some.injEq, Prod.mk.injEq] at h
        exact ⟨c1, c2, c3, [], h1, h2, h3, h.1.symm, rfl, Or.inl ⟨rfl, h.2.symm⟩⟩
      · rename_i hne
        split at h
        · rename_i hall
          rw [Option.some.injEq, Prod.mk.injEq] at h
          refine ⟨c1, c2, c3, rest, h1, h2, h3, h.1.symm, rfl,
            Or.inr ⟨?_, hall, h.2.symm⟩⟩
          intro hrest
          exact hne hrest
        · exact absurd h (by simp)
    · exact absurd h (by simp)
  · exact absurd h (by simp)

theorem decValueQ_three {c1 c2 c3 : Char} (h1 : isDigitChar c1 = true)
    (h2 : isDigitChar c2 = true) (h3 : isDigitChar c3 = true) :
    decValueQ [c1, c2, c3] =
      some (100 * (c1.toNat - 48) + 10 * (c2.toNat - 48) + (c3.toNat - 48)) := by
  simp only [decValueQ, decValueAux, h1, h2, h3, if_true, decDigitVal]
  exact congrArg some (by omega)

theorem decRenderAux_small {fuel n : Nat} (h : n < 10) :
    decRenderAux fuel n = [digitCharOf n] := by
  cases fuel <;> simp [decRenderAux, h]

theorem decRenderAux_step {fuel n : Nat} (h : 10 ≤ n) :
    decRenderAux (fuel + 1) n = decRenderAux fuel (n / 10) ++ [digitCharOf (n % 10)] := by
  have : ¬ n < 10 := by omega
  simp [decRenderAux, this]

theorem decRender_three {n : Nat} (hlo : 100 ≤ n) (hhi : n ≤ 999) :
    decRender n = [digitCharOf (n / 100), digitCharOf (n / 10 % 10), digitCharOf (n % 10)] := by
  obtain ⟨k, rfl⟩ : ∃ k, n = k + 3 := ⟨n - 3, by omega⟩
  rw [decRender]
  rw [show k + 3 = (k + 2) + 1 from rfl, decRenderAux_step (by omega)]
  rw [decRenderAux_step (show 10 ≤ (k + 3) / 10 by omega)]
  rw [decRenderAux_small (show (k + 3) / 10 / 10 < 10 by omega)]
  have e1 : (k + 3) / 10 / 10 = (k + 3) / 100 := by
    rw [Nat.div_div_eq_div_mul]
  simp [e1]

theorem decRender_digits {c1 c2 c3 : Char} (h1 : isDigitChar c1 = true)
    (h2 : isDigitChar c2 = true) (h3 : isDigitChar c3 = true)
    (hlead : 100 ≤ 100 * (c1.toNat - 48) + 10 * (c2.toNat - 48) + (c3.toNat - 48)) :
    decRender (100 * (c1.toNat - 48) + 10 * (c2.toNat - 48) + (c3.toNat - 48)) =
      [c1, c2, c3] := by
  have b1 := digitBounds h1
  have b2 := digitBounds h2
  have b3 := digitBounds h3
  rw [decRender_three hlead (by omega)]
  have e1 : (100 * (c1.toNat - 48) + 10 * (c2.toNat - 48) + (c3.toNat - 48)) / 100 =
      c1.toNat - 48 := by omega
  have e2 : (100 * (c1.toNat - 48) + 10 * (c2.toNat - 48) + (c3.toNat - 48)) / 10 % 10 =
      c2.toNat - 48 := by omega
  have e3 : (100 * (c1.toNat - 48) + 10 * (c2.toNat - 48) + (c3.toNat - 48)) % 10 =
      c3.toNat - 48 := by omega
  rw [e1, e2, e3, digitCharOf_toNat h1, digitCharOf_toNat h2, digitCharOf_toNat h3]

theorem requestLineSplit_on_version (d1 d2 : Char) (rest : List Char) :
    requestLineSplit ('H' :: 'T' :: 'T' :: 'P' :: '/' :: d1 :: '.' :: d2 :: rest) = none := rfl

/-- C8 counterexample: start-line round-trips fail for parser-produced
status lines in two ways — a status line with an absent reason phrase
(`"HTTP/1.1 200 "`) renders with an `AttributeError`, and a status code with
leading zeros (`"HTTP/1.1 007 A"`) renders as `"HTTP/1.1 7 A"`, which no
longer matches the `status-line` grammar. -/
theorem c8_round_trip_counterexample :
    StartLine.from_bytes "HTTP/1.1 200 ".data =
      .ok (.status ⟨"HTTP/1.1".data, 200, none⟩) ∧
    StatusLine.toBytes ⟨"HTTP/1.1".data, 200, none⟩ =
      .error (.attributeError "NoneType object has no attribute encode") ∧
    StartLine.from_bytes "HTTP/1.1 007 A".data =
      .ok (.status ⟨"HTTP/1.1".data, 7, some "A".data⟩) ∧
    StatusLine.toBytes ⟨"HTTP/1.1".data, 7, some "A".data⟩ = .ok "HTTP/1.1 7 A".data ∧
    StartLine.from_bytes "HTTP/1.1 7 A".data = .error (.grammarMismatch "start-line") :=
  ⟨by decide, by decide, by decide, by decide, by decide⟩

/-- C8 (amended): every `StatusLine` produced by `StartLine.from_bytes`
whose reason phrase is present and whose status code is at least 100 (no
leading zero in its three status-code digits) renders with
`StatusLine.__bytes__` and re-parses to an equal value. -/
theorem c8_round_trip_amended :
    ∀ (s : List Char) (sl : StatusLine) (r bs : List Char),
      StartLine.from_bytes s = .ok (.status sl) →
      sl.reason_phrase = some r →
      100 ≤ sl.status_code →
      StatusLine.toBytes sl = .ok bs →
      StartLine.from_bytes bs = .ok (.status sl) := by
  intro s sl r bs hparse hreason hcode hrender
  unfold StartLine.from_bytes at hparse
  cases hreq : requestLineSplit s with
  | some x =>
    obtain ⟨m, t, v⟩ := x
    rw [hreq] at hparse
    simp at hparse
  | none =>
    rw [hreq] at hparse
    cases hslp : statusLineSplit s with
    | none => rw [hslp] at hparse; simp at hparse
    | some x =>
      obtain ⟨v, code, reason⟩ := x
      rw [hslp] at hparse
      have hparse2 : (match decValueQ code with
          | some n => Except.ok (StartLine.status ⟨v, n, reason⟩)
          | none => Except.error (PyErr.valueError "invalid literal for int")) =
          Except.ok (StartLine.status sl) := hparse
      cases hdv : decValueQ code with
      | none => rw [hdv] at hparse2; simp at hparse2
      | some n =>
        rw [hdv] at hparse2
        have hsl : sl = ⟨v, n, reason⟩ := by
          rw [Except.ok.injEq] at hparse2
          injection hparse2 with h'
          exact h'.symm
        subst hsl
        have hreasonEq : reason = some r := hreason
        have hcodeN : 100 ≤ n := hcode
        unfold statusLineSplit at hslp
        cases hhv : httpVersionSplit s with
        | none => rw [hhv] at hslp; simp at hslp
        | some y =>
          obtain ⟨v2, r2⟩ := y
          rw [hhv] at hslp
          have hslp2 : (match statusTailSplit r2 with
              | some (code2, reason2) => some (v2, code2, reason2)
              | none => none) = some (v, code, reason) := hslp
          cases hts : statusTailSplit r2 with
          | none => rw [hts] at hslp2; simp at hslp2
          | some z =>
            obtain ⟨code2, reason2⟩ := z
            rw [hts] at hslp2
            simp only [Option.some.injEq, Prod.mk.injEq] at hslp2
            obtain ⟨hv2, hcode2, hreason2⟩ := hslp2
            subst hv2
            subst hcode2
            subst hreason2
            obtain ⟨d1, d2, hd1, hd2, hvshape, _⟩ := httpVersionSplit_some hhv
            obtain ⟨c1, c2, c3, rest, hc1, hc2, hc3, hcodeshape, _, hrcase⟩ :=
              statusTailSplit_some hts
            rcases hrcase with ⟨_, hreasonnone⟩ | ⟨hrestne, hall, hreasonsome⟩
            · rw [hreasonnone] at hreasonEq
              exact absurd hreasonEq (by simp)
            · have hrr : rest = r := by
                rw [hreasonsome] at hreasonEq
                injection hreasonEq
              subst hrr
              subst hcodeshape
              rw [decValueQ_three hc1 hc2 hc3, Option.some.injEq] at hdv
              have hbs : bs = v2 ++ ' ' :: decRender n ++ ' ' :: rest := by
                unfold StatusLine.toBytes at hrender
                simp only [hreasonEq] at hrender
                rw [Except.ok.injEq] at hrender
                exact hrender.symm
              have hdec : decRender n = [c1, c2, c3] := by
                rw [← hdv]
                exact decRender_digits hc1 hc2 hc3 (hdv ▸ hcodeN)
              rw [hbs, hdec, hvshape, hreasonEq]
              show StartLine.from_bytes
                  ('H' :: 'T' :: 'T' :: 'P' :: '/' :: d1 :: '.' :: d2 ::
                    (' ' :: c1 :: c2 :: c3 :: ' ' :: rest)) =
                Except.ok (StartLine.status
                  ⟨['H', 'T', 'T', 'P', '/', d1, '.', d2], n, some rest⟩)
              have hhv2 : httpVersionSplit
                  ('H' :: 'T' :: 'T' :: 'P' :: '/' :: d1 :: '.' :: d2 ::
                    (' ' :: c1 :: c2 :: c3 :: ' ' :: rest)) =
                  some (['H', 'T', 'T', 'P', '/', d1, '.', d2],
                        ' ' :: c1 :: c2 :: c3 :: ' ' :: rest) := by
                unfold httpVersionSplit
                simp [hd1, hd2]
              have hts2 : statusTailSplit (' ' :: c1 :: c2 :: c3 :: ' ' :: rest) =
                  some ([c1, c2, c3], some rest) := by
                unfold statusTailSplit
                cases rest with
                | nil => exact absurd rfl hrestne
                | cons rc rtail => simp [hc1, hc2, hc3, hall]
              simp only [StartLine.from_bytes, requestLineSplit_on_version,
                statusLineSplit, hhv2, hts2, decValueQ_three hc1 hc2 hc3, hdv]

/-- Witness for C8: the amended round-trip instantiated on
`"HTTP/1.1 200 OK"`. -/
theorem c8_round_trip_amended_witness :
    StartLine.from_bytes "HTTP/1.1 200 OK".data =
      .ok (.status ⟨"HTTP/1.1".data, 200, some "OK".data⟩) :=
  c8_round_trip_amended "HTTP/1.1 200 OK".data
    ⟨"HTTP/1.1".data, 200, some "OK".data⟩ "OK".data "HTTP/1.1 200 OK".data
    (by decide) (by decide) (by decide) (by decide)

/-- C9: the claim says a URI whose authority carries userinfo parses, with
username and password extracted and the host resolved via the Host decoder.
The code passes the entire netloc — userinfo included — to `parse_host`,
whose grammar rejects it, so `parse_uri` raises a `GrammarMismatch` instead;
the generic URI splitter itself would have supplied the username and
password, and the same URI without userinfo parses as described. -/
theorem c9_userinfo_uri_fails :
    parse_uri "http://user:pw@example.com/path".data none =
      .error (.grammarMismatch "host") ∧
    parse_host "user:pw@example.com".data = .error (.grammarMismatch "host") ∧
    urlsplitModel "http://user:pw@example.com/path".data =
      ⟨"http".data, "user:pw@example.com".data, "/path".data, [], []⟩ ∧
    urlUsername "user:pw@example.com".data = some "user".data ∧
    urlPassword "user:pw@example.com".data = some "pw".data ∧
    parse_uri "http://example.com/path".data none =
      .ok ⟨"http".data, some "example.com".data, "/path".data, [], [],
           none, none, some 80, none, none, none⟩ :=
  ⟨by decide, by decide, by decide, by decide, by decide, by decide⟩

/-- C10: the claim says that when the supplied public-suffix collaborator
finds no match, `parse_uri` returns a `ParsedURI` with registered_domain,
subdomain and top_level_domain all absent.  The code dereferences the
collaborator's `None` result unconditionally, raising an `AttributeError`
instead; with a matching decomposition the three fields are populated, and
with no collaborator they stay absent. -/
theorem c10_no_match_decomposition_crashes :
    parse_uri "http://example.com/".data (some (fun _ => none)) =
      .error (.attributeError "NoneType object has no attribute registered_domain") ∧
    parse_uri "http://example.com/".data
      (some (fun _ => some ⟨some "example.com".data, some [], some "com".data⟩)) =
      .ok ⟨"http".data, some "example.com".data, "/".data, [], [],
           none, none, some 80, some "example.com".data, some [], some "com".data⟩ ∧
    parse_uri "http://example.com/".data none =
      .ok ⟨"http".data, some "example.com".data, "/".data, [], [],
           none, none, some 80, none, none, none⟩ :=
  ⟨by decide, by decide, by decide⟩

/-- Witness for C6: the amended statement instantiated on `proto="http"`. -/
theorem c6_raw_mode_value_text_witness :
    ∃ re, [(⟨none, none, none, some (.str ('"' :: "http".data ++ ['"']))⟩ :
        ForwardedElementR)].get? 0 = some re ∧
      ∀ p ∈ [(⟨"proto".data, ⟨'"' :: "http".data ++ ['"'], true⟩, none⟩ : AnnPair)],
        elemFieldOf re (lowerStr p.name) = some (.str p.value.raw) :=
  c6_raw_mode_value_text ("proto=".data ++ '"' :: "http".data ++ ['"'])
    [[⟨"proto".data, ⟨'"' :: "http".data ++ ['"'], true⟩, none⟩]]
    [⟨none, none, none, some (.str ('"' :: "http".data ++ ['"']))⟩]
    (by decide) (by decide) 0
    [⟨"proto".data, ⟨'"' :: "http".data ++ ['"'], true⟩, none⟩] (by decide)
